import Mathlib

/-!
Verification of the sesame object-to-object mapper generator.

This file shallowly embeds the parts of the repository that the claims
C1 to C10 are about:

* the type-utility functions of `util.go` and `internal/util.go`
  (qualified type names, `CanCast`, pointer-preference checks),
* the runtime registries of `mappers.go` (two generated-code variants)
  and of `logger.go` (the function-index registry),
* the code synthesizer of `config.go` (`genAssignStmt`,
  `genFieldMapStmts`, `genMapFuncBody`) modelled as a line emitter.

Machine integers only appear as bit-width numerals inside type names, so
they are modelled as `Nat`.  Go maps (`sync.Map`) are modelled as
functions `String → Option _`; `Store` is pointwise update.  Fallible Go
code returns `Except`; a Go `panic` is a distinguished constructor.
-/

namespace Sesame

/-! ### Go string primitives

Go indexes strings by bytes; every string the embedded code slices or
compares is ASCII, so a byte is a `Char` and `s[n:]` is `List.drop` on
`String.data`. -/

/-- Byte-level suffix slice `s[n:]` of an ASCII Go string. -/
def goStrDrop (s : String) (n : Nat) : String :=
  String.mk (s.data.drop n)

/-- Models `strings.HasPrefix`. -/
def goHasPfx (s p : String) : Bool :=
  p.data.isPrefixOf s.data

/-- Models `strings.HasSuffix`. -/
def goHasSfx (s p : String) : Bool :=
  p.data.isSuffixOf s.data

/-- Models `strings.ToLower` for ASCII strings. -/
def goToLower (s : String) : String :=
  String.mk (s.data.map Char.toLower)

/-- Models the use of `strconv.Atoi(s)` with the error ignored
(`n, _ := strconv.Atoi(s)`): a string of one or more ASCII digits parses
to its value, anything else leaves the zero value `0`.  (The embedded
code only applies it to bit-width suffixes such as "8", "32", "64", or
to non-numeric suffixes such as "ptr", where Go returns 0 and an
error.) -/
def atoiOrZero (s : String) : Nat :=
  if s.length ≠ 0 && s.data.all Char.isDigit then
    s.data.foldl (fun acc c => acc * 10 + (c.toNat - 48)) 0
  else 0

/-! ### The version-suffix stripper and the method-name pattern

`mappers.go` and `logger.go` share two regular expressions:
`mapperNameVersionSuffixPattern = [vV]\d+` (used through
`FindAllStringIndex`, stripping the last match when it ends at the end
of the name) and `mapperFuncNamePattern = [A-Z][\w]+To[A-Z].*` (used
through `MatchString`). -/

/-- Models the version-suffix stripping of `Add` / `addMethods`:
Go finds all matches of `[vV]\d+` and removes the last one when it ends
at the end of the string.  A `\d+` run never contains the letter v, so a
match ending at the end of the string exists exactly when the string
ends in `v` or `V` followed by one or more digits, and that match starts
at this very `v`/`V`; stripping removes this trailing run.  (The split
into the trailing digit run and the rest is `span` on the reversed
character list.) -/
def stripVersionSfx (name : String) : String :=
  match name.data.reverse.takeWhile Char.isDigit,
        name.data.reverse.dropWhile Char.isDigit with
  | _ :: _, c :: rest =>
      if c = 'v' || c = 'V' then String.mk rest.reverse else name
  | _, _ => name

/-- Word character of the Go regexp class `\w` (`[0-9A-Za-z_]`). -/
def isWordChar (c : Char) : Bool :=
  c.isAlphanum || c = '_'

/-- True when the char list starts with the literal `To` followed by an
upper-case letter (the tail `To[A-Z]` of the method-name pattern). -/
def startsToUpper : List Char → Bool
  | 'T' :: 'o' :: u :: _ => u.isUpper
  | _ => false

/-- After the leading `[A-Z]` of the pattern: one or more `\w`
characters followed by `To[A-Z]` somewhere down the run. -/
def wordRunThenTo : List Char → Bool
  | [] => false
  | c :: rest => isWordChar c && (startsToUpper rest || wordRunThenTo rest)

/-- Substring search for `[A-Z][\w]+To[A-Z].*` at any position. -/
def hasMapperFuncName : List Char → Bool
  | [] => false
  | c :: rest => (c.isUpper && wordRunThenTo rest) || hasMapperFuncName rest

/-- Models `mapperFuncNamePattern.MatchString` /
`funcNamePatter.MatchString`: unanchored match of
`[A-Z][\w]+To[A-Z].*`. -/
def mapperFuncNameMatch (s : String) : Bool :=
  hasMapperFuncName s.data

/-! ### The `go/types` model

`GoType` is a finite tree model of `go/types.Type` as the embedded code
consumes it: basic types, pointers, slices, arrays, maps, channels,
named types (package path, name, underlying type, method set) and
struct types (ordered field list).  A struct field is `(name, type)`;
`Exported()` is recomputed from the name as Go does.  A method carries
its name, its parameter types and its result types. -/

mutual
inductive GoType : Type where
  | basic : String → GoType
  | pointer : GoType → GoType
  | slice : GoType → GoType
  | array : Nat → GoType → GoType
  | mapT : GoType → GoType → GoType
  | chanT : GoType → GoType
  | named : String → String → GoType → GoMethods → GoType
  | structT : GoFields → GoType
deriving DecidableEq

inductive GoFields : Type where
  | nil : GoFields
  | cons : String → GoType → GoFields → GoFields
deriving DecidableEq

inductive GoMethods : Type where
  | nil : GoMethods
  | cons : String → GoTypes → GoTypes → GoMethods → GoMethods
deriving DecidableEq

inductive GoTypes : Type where
  | nil : GoTypes
  | cons : GoType → GoTypes → GoTypes
deriving DecidableEq
end

/-- Models `types.Object.Exported()`: the first character is an
upper-case letter. -/
def goExported (name : String) : Bool :=
  match name.data with
  | [] => false
  | c :: _ => c.isUpper

/-- Models `Type.Underlying()`.  A named type yields its stored
underlying type; every other type is its own underlying type. -/
def GoType.underlying : GoType → GoType
  | .named _ _ u _ => u
  | t => t

mutual
/-- Models `types.Type.String()` as the embedded code observes it in
default branches and error messages: pointers, maps, slices, arrays and
channels print structurally, a named type prints as `pkg.Name`, a basic
type prints its name, a struct prints its field list. -/
def GoType.render : GoType → String
  | .basic nm => nm
  | .pointer e => "*" ++ e.render
  | .slice e => "[]" ++ e.render
  | .array n e => "[" ++ toString n ++ "]" ++ e.render
  | .mapT k v => "map[" ++ k.render ++ "]" ++ v.render
  | .chanT e => "chan " ++ e.render
  | .named pkg nm _ _ => if pkg = "" then nm else pkg ++ "." ++ nm
  | .structT fs => "struct\x7b" ++ fs.render ++ "\x7d"

/-- Field list of a struct rendering, separated by `; `. -/
def GoFields.render : GoFields → String
  | .nil => ""
  | .cons nm t .nil => nm ++ " " ++ t.render
  | .cons nm t rest => nm ++ " " ++ t.render ++ "; " ++ rest.render
end

/-- Models the inner `getQualifiedTypeName` of `util.go`: pointers add
`*`, maps, slices and arrays print structurally, a named type prints as
`pkgPath#Name`, a basic type prints its name, and the default branch
falls back to `t.String()`. -/
def getQualifiedTypeNameCore : GoType → String
  | .pointer e => "*" ++ getQualifiedTypeNameCore e
  | .mapT k v =>
      "map[" ++ getQualifiedTypeNameCore k ++ "]" ++ getQualifiedTypeNameCore v
  | .slice e => "[]" ++ getQualifiedTypeNameCore e
  | .array n e => "[" ++ toString n ++ "]" ++ getQualifiedTypeNameCore e
  | .named pkg nm _ _ => pkg ++ "#" ++ nm
  | .basic nm => nm
  | t => t.render

/-- Models `GetQualifiedTypeName` of `util.go`: one outer pointer layer
is stripped before rendering. -/
def GetQualifiedTypeName : GoType → String
  | .pointer e => getQualifiedTypeNameCore e
  | t => getQualifiedTypeNameCore t

/-- Models `to32` of `util.go`: the unsized `int`/`uint` count as their
32-bit forms. -/
def to32 (t : String) : String :=
  if t = "int" then "int32" else if t = "uint" then "uint32" else t

/-- Models `CanCast` of `util.go` (the same code appears in
`internal/util.go`): first the named-alias check on qualified names,
then the two sequential integer-width branches on basic types.  The
`int` branch returns true when `dbit > sbit`; the `uint` branch (as
written in the source) returns true when `dbit < sbit`. -/
def CanCast (sourceType destType : GoType) : Bool :=
  let sourceTypeName := GetQualifiedTypeName sourceType
  let sourceUnderlyingTypeName := GetQualifiedTypeName sourceType.underlying
  let destTypeName := GetQualifiedTypeName destType
  let destUnderlyingTypeName := GetQualifiedTypeName destType.underlying
  if sourceTypeName = destUnderlyingTypeName ∨ destTypeName = sourceUnderlyingTypeName then
    true
  else
    match sourceType, destType with
    | .basic sn, .basic dn =>
        if goHasPfx sn "int" && goHasPfx dn "int" &&
            decide (atoiOrZero (goStrDrop (to32 sn) 3) < atoiOrZero (goStrDrop (to32 dn) 3)) then
          true
        else if goHasPfx sn "uint" && goHasPfx dn "uint" &&
            decide (atoiOrZero (goStrDrop (to32 dn) 4) < atoiOrZero (goStrDrop (to32 sn) 4)) then
          true
        else false
    | _, _ => false

/-- Names of the type objects of `types.Universe` that can be produced
by `typ.Underlying().Name()` in `IsPointerPreferableType` and
`IsBuiltinType` (the underlying type of any Go type that has a `Name()`
method is a `*types.Basic`, so only the predeclared basic type names are
reachable). -/
def universeTypeNames : List String :=
  ["bool", "byte", "complex64", "complex128", "error", "float32", "float64",
   "int", "int8", "int16", "int32", "int64", "rune", "string",
   "uint", "uint8", "uint16", "uint32", "uint64", "uintptr"]

/-- Name of `typ.Underlying()` when it implements `interface{ Name() string }`
(that is, when it is a basic type), else the empty string. -/
def underlyingTypeName (t : GoType) : String :=
  match t.underlying with
  | .basic nm => nm
  | .named _ nm _ _ => nm
  | _ => ""

/-- Models `IsPointerPreferableType` of `util.go`: strip pointers, then
return false exactly when the underlying type carries a name found in
`types.Universe`. -/
def IsPointerPreferableType : GoType → Bool
  | .pointer e => IsPointerPreferableType e
  | t => ¬ (universeTypeNames.contains (underlyingTypeName t))

/-! ### The reflection model

`Add` of `mappers.go` scans the method set of the registered object
through the `reflect` package.  `RTypeRef` models a reflect type as the
scanning observes it: Go dereferences a pointer kind once
(`if in.Kind() == reflect.Ptr { in = in.Elem() }`) and then reads
`Name()` and `PkgPath()`, so the model stores the pointer flag together
with the name and package path of the dereferenced type.  `RMethod`
models `reflect.Method` of a method-set entry of
`reflect.TypeOf(obj)`: for a non-interface type, `ins` includes the
receiver at index 0, matching `method.Func.Interface()`. -/

structure RTypeRef where
  isPtr : Bool
  pkgPath : String
  name : String
deriving DecidableEq

structure RMethod where
  name : String
  ins : List RTypeRef
  outs : List RTypeRef
deriving DecidableEq

/-- Models the name computation of `Add` in `mappers.go`
(`inName := in.Name(); if len(in.PkgPath()) != 0 { inName = in.PkgPath() + "#" + inName }`). -/
def reflectQualifiedName (r : RTypeRef) : String :=
  if r.pkgPath = "" then r.name else r.pkgPath ++ "#" ++ r.name

/-- Zero value used where Go would index a parameter or result list
(Go panics on an out-of-range reflect index; the arity guards of the
embedded code keep the accesses in range). -/
def zeroRef : RTypeRef := ⟨false, "", ""⟩

/-- Runtime values held by a registry.  `obj` is an ordinary object,
identified by a tag and carrying the method set of its dynamic type;
`funcVal` is a method value extracted by name from a registry-resolved
object (the v1 factories of `Add`); `boundMethod` is a method value
extracted eagerly from a concrete object (the v2 factories of `Add`). -/
inductive GoVal where
  | obj (tag : Nat) (methods : List RMethod)
  | funcVal (ownerId : String) (methodName : String)
  | boundMethod (tag : Nat) (methodName : String)
deriving DecidableEq

/-- Method set of `reflect.TypeOf` of a value: only ordinary objects
expose methods; func values have none. -/
def methodsOf : GoVal → List RMethod
  | .obj _ ms => ms
  | _ => []

/-- Identity tag of an ordinary object (0 for func values). -/
def tagOf : GoVal → Nat
  | .obj t _ => t
  | _ => 0

/-! ### Errors and outcomes

`merror` of `mappers.go` wraps an error together with a `notFound`
flag; `Get` sometimes wraps the `merror` once more with
`fmt.Errorf("...: %w", merr)`.  `MErr.notFoundFlag` models how a caller
reads the flag through the `errors` unwrap chain (`errors.As` finds the
first `merror`). -/

inductive MErr where
  | merror (msg : String) (notFound : Bool)
  | wrapped (msg : String) (inner : MErr)
deriving DecidableEq

/-- The `NotFound()` answer of the first `merror` in the unwrap chain. -/
def MErr.notFoundFlag : MErr → Bool
  | .merror _ nf => nf
  | .wrapped _ inner => inner.notFoundFlag

/-- Outcome of a registry call: a value, a returned error, or an
escaping Go panic. -/
inductive GoOutcome where
  | ok (v : GoVal)
  | err (e : MErr)
  | fatal (msg : String)
deriving DecidableEq

/-! ### Map primitives

`sync.Map` is modelled as `String → Option _`; `Store` is pointwise
update and `Delete` pointwise removal. -/

/-- Models `sync.Map.Store`. -/
def mapStore (m : String → Option α) (k : String) (v : α) : String → Option α :=
  fun x => if x = k then some v else m x

/-- Models `sync.Map.Delete`. -/
def mapDelete (m : String → Option α) (k : String) : String → Option α :=
  fun x => if x = k then none else m x

/-! ## Registry variant 1 (first `mappersSrc` template of `mappers.go`)

Factories are modelled by their behaviour: `result` is a user factory
(the claims only exercise factories whose outcome does not depend on
the getter argument), `methodOf` is the closure `Add` registers, which
resolves the owner through the getter and extracts the method value by
name. -/

inductive FactoryV1 where
  | result (r : Except String GoVal)
  | methodOf (ownerId methodName : String)

structure MappersV1 where
  dependencies : String → Option GoVal
  factories : String → Option FactoryV1

/-- Models the `Converter` branch of `Add` (v1): every method whose name
matches the pattern and whose func type has 3 inputs and 2 or 3 outputs
registers a `converterFunc:` factory keyed by the qualified names of
input 2 and output 0. -/
def scanConverterV1 (name : String) (ms : List RMethod)
    (facts : String → Option FactoryV1) : String → Option FactoryV1 :=
  ms.foldl (fun fs m =>
    if mapperFuncNameMatch m.name then
      if m.ins.length ≠ 3 ∨ (m.outs.length ≠ 2 ∧ m.outs.length ≠ 3) then fs
      else
        let inName := reflectQualifiedName (m.ins.getD 2 zeroRef)
        let outName := reflectQualifiedName (m.outs.getD 0 zeroRef)
        mapStore fs ("converterFunc:" ++ inName ++ ":" ++ outName)
          (.methodOf name m.name)
    else fs) facts

/-- Models the `Mapper` branch of `Add` (v1): methods with 4 inputs and
1 output register a `mapperFunc:` factory keyed by the qualified names
of inputs 2 and 3. -/
def scanMapperV1 (name : String) (ms : List RMethod)
    (facts : String → Option FactoryV1) : String → Option FactoryV1 :=
  ms.foldl (fun fs m =>
    if mapperFuncNameMatch m.name then
      if m.ins.length ≠ 4 ∨ m.outs.length ≠ 1 then fs
      else
        let inName := reflectQualifiedName (m.ins.getD 2 zeroRef)
        let outName := reflectQualifiedName (m.ins.getD 3 zeroRef)
        mapStore fs ("mapperFunc:" ++ inName ++ ":" ++ outName)
          (.methodOf name m.name)
    else fs) facts

/-- Models `Add` of `mappers.go` (v1, lines 113-195): store the object,
strip a trailing version suffix, return for `Helper` suffixes and
`mapperFunc:`/`converterFunc:` keys, scan the method set for
`Converter`/`Mapper` suffixes, and otherwise panic with an
`Unknown object type` message (the panic message uses the stripped
name).  A panic is an `Except.error`. -/
def MappersV1.add (d : MappersV1) (name : String) (obj : GoVal) :
    Except String MappersV1 :=
  let d1 : MappersV1 := { d with dependencies := mapStore d.dependencies name obj }
  let name := stripVersionSfx name
  if goHasSfx name "Helper" then .ok d1
  else if goHasPfx name "mapperFunc:" then .ok d1
  else if goHasPfx name "converterFunc:" then .ok d1
  else if goHasSfx name "Converter" then
    .ok { d1 with factories := scanConverterV1 name (methodsOf obj) d1.factories }
  else if goHasSfx name "Mapper" then
    .ok { d1 with factories := scanMapperV1 name (methodsOf obj) d1.factories }
  else .error ("Unknown object type:" ++ name)

/-- Models `AddFactory` (v1, lines 257-263): `Add` the type hint, delete
it from the dependencies again, store the factory. -/
def MappersV1.addFactory (d : MappersV1) (name : String) (typ : GoVal)
    (factory : Except String GoVal) : Except String MappersV1 := do
  let d ← d.add name typ
  .ok { d with dependencies := mapDelete d.dependencies name,
               factories := mapStore d.factories name (.result factory) }

/-- Intermediate outcome of invoking a v1 factory. -/
inductive FactOut where
  | okv (v : GoVal)
  | errv (msg : String)
  | fatalv (msg : String)
deriving DecidableEq

/-- Models `Get` of `mappers.go` (v1, lines 203-226).  A dependency hit
returns the stored object.  Otherwise a stored factory is invoked: a
factory error is wrapped as `Failed to create a mapper: %w` around a
non-notFound `merror`; a factory result is re-`Add`ed (whose panic
escapes) and returned.  Without a factory the call returns a `notFound`
`merror`.  The `fuel` bounds the recursion of `methodOf` factories,
which resolve their owner through `Get`; the embedded registries never
need nested resolution deeper than the fuel supplied by the theorems.
A `methodOf` factory ignores the owner lookup error as the source does
(`obj, _ := mg.Get(name)`), which panics in `reflect` when the owner is
missing or lacks the method. -/
def getV1 (fuel : Nat) (d : MappersV1) (id : String) : GoOutcome × MappersV1 :=
  match d.dependencies id with
  | some v => (.ok v, d)
  | none =>
    match d.factories id with
    | none => (.err (.merror ("Object " ++ id ++ " not found") true), d)
    | some fct =>
      let inv : FactOut × MappersV1 :=
        match fct with
        | .result (.ok v) => (.okv v, d)
        | .result (.error m) => (.errv m, d)
        | .methodOf owner mname =>
          match fuel with
          | 0 => (.fatalv "model: factory recursion fuel exhausted", d)
          | fuel' + 1 =>
            match getV1 fuel' d owner with
            | (.ok v, d1) =>
                if (methodsOf v).any (fun m => m.name = mname) then
                  (.okv (.funcVal owner mname), d1)
                else (.fatalv ("reflect: method " ++ mname ++ " not found"), d1)
            | (.err _, d1) => (.fatalv "reflect: MethodByName on invalid value", d1)
            | (.fatal m, d1) => (.fatalv m, d1)
      match inv with
      | (.okv obj, d1) =>
        match d1.add id obj with
        | .error pmsg => (.fatal pmsg, d1)
        | .ok d2 => (.ok obj, d2)
      | (.errv m, d1) =>
        (.err (.wrapped "Failed to create a mapper: " (.merror m false)), d1)
      | (.fatalv m, d1) => (.fatal m, d1)

/-- Models `Merge` of `mappers.go` (v1, lines 285-304): every dependency
and factory of the other registry is stored into this one, overwriting
entries with the same key. -/
def mergeV1 (d other : MappersV1) : MappersV1 :=
  { dependencies := fun k =>
      match other.dependencies k with
      | some v => some v
      | none => d.dependencies k,
    factories := fun k =>
      match other.factories k with
      | some f => some f
      | none => d.factories k }

/-- The empty v1 registry (`NewMappers` before bootstrap). -/
def emptyV1 : MappersV1 :=
  { dependencies := fun _ => none, factories := fun _ => none }

/-! ## Registry variant 2 (second `mappersSrc` template of `mappers.go`)

`AddFactory` wraps the factory in a memoizing `singleton`; `Get` falls
back to an optional parent registry.  A singleton is modelled by the
outcome of its wrapped factory, the memoized result, and an invocation
counter (the counter is the observation that `once.Do` ran the factory;
it is not part of the Go struct). -/

structure SingletonV2 where
  factoryRes : Except String GoVal
  memo : Option (Except String GoVal)
  calls : Nat

/-- Models `singleton.Get` (lines 337-342): `once.Do` invokes the
factory only when no result is memoized. -/
def SingletonV2.resolve (s : SingletonV2) : (Except String GoVal) × SingletonV2 :=
  match s.memo with
  | some r => (r, s)
  | none => (s.factoryRes, { s with memo := some s.factoryRes, calls := s.calls + 1 })

/-- The v2 registry: its two maps and the optional parent of
`NewMappers(parent ...)`.  The absent/present parent is encoded as two
constructors (`root` has no parent, `child` has one). -/
inductive MappersV2 : Type where
  | root (dependencies : String → Option GoVal)
         (factories : String → Option SingletonV2)
  | child (dependencies : String → Option GoVal)
          (factories : String → Option SingletonV2)
          (parent : MappersV2)

def MappersV2.dependencies : MappersV2 → String → Option GoVal
  | .root deps _ => deps
  | .child deps _ _ => deps

def MappersV2.factories : MappersV2 → String → Option SingletonV2
  | .root _ f => f
  | .child _ f _ => f

def MappersV2.withDeps : MappersV2 → (String → Option GoVal) → MappersV2
  | .root _ f, deps => .root deps f
  | .child _ f p, deps => .child deps f p

def MappersV2.withFacts : MappersV2 → (String → Option SingletonV2) → MappersV2
  | .root d _, f => .root d f
  | .child d _ p, f => .child d f p

/-- Models `AddFactory` (v2, lines 548-555): the factory is wrapped in a
fresh memoizing singleton and stored. -/
def MappersV2.addFactory (d : MappersV2) (name : String)
    (factory : Except String GoVal) : MappersV2 :=
  d.withFacts (mapStore d.factories name
    { factoryRes := factory, memo := none, calls := 0 })

/-- Models the `Converter` branch of `Add` (v2): methods whose name
matches the pattern need 3 inputs and exactly 2 outputs; the method
value is extracted eagerly and registered through
`AddConverterFuncFactory`, that is, as a memoized constant factory. -/
def scanConverterV2 (obj : GoVal) (d : MappersV2) : MappersV2 :=
  (methodsOf obj).foldl (fun d m =>
    if mapperFuncNameMatch m.name then
      if m.ins.length ≠ 3 ∨ m.outs.length ≠ 2 then d
      else
        let inName := reflectQualifiedName (m.ins.getD 2 zeroRef)
        let outName := reflectQualifiedName (m.outs.getD 0 zeroRef)
        d.addFactory ("converterFunc:" ++ inName ++ ":" ++ outName)
          (.ok (.boundMethod (tagOf obj) m.name))
    else d) d

/-- Models the `Mapper` branch of `Add` (v2): 4 inputs, 1 output. -/
def scanMapperV2 (obj : GoVal) (d : MappersV2) : MappersV2 :=
  (methodsOf obj).foldl (fun d m =>
    if mapperFuncNameMatch m.name then
      if m.ins.length ≠ 4 ∨ m.outs.length ≠ 1 then d
      else
        let inName := reflectQualifiedName (m.ins.getD 2 zeroRef)
        let outName := reflectQualifiedName (m.ins.getD 3 zeroRef)
        d.addFactory ("mapperFunc:" ++ inName ++ ":" ++ outName)
          (.ok (.boundMethod (tagOf obj) m.name))
    else d) d

/-- Models `Add` of `mappers.go` (v2, lines 426-508): the same
classification chain as v1; the method registrations go through the
singleton-based `AddFactory`. -/
def MappersV2.add (d : MappersV2) (name : String) (obj : GoVal) :
    Except String MappersV2 :=
  let d1 : MappersV2 := d.withDeps (mapStore d.dependencies name obj)
  let name := stripVersionSfx name
  if goHasSfx name "Helper" then .ok d1
  else if goHasPfx name "mapperFunc:" then .ok d1
  else if goHasPfx name "converterFunc:" then .ok d1
  else if goHasSfx name "Converter" then .ok (scanConverterV2 obj d1)
  else if goHasSfx name "Mapper" then .ok (scanMapperV2 obj d1)
  else .error ("Unknown object type:" ++ name)

/-- Models the factory path of v2 `Get`: resolve the memoizing
singleton, store its updated state back, wrap a factory error around a
non-notFound `merror`, and re-`Add` a factory result (whose panic
escapes). -/
def MappersV2.resolveFactory (d : MappersV2) (id : String) (s : SingletonV2) :
    GoOutcome × MappersV2 :=
  let rs := s.resolve
  let d1 : MappersV2 := d.withFacts (mapStore d.factories id rs.2)
  match rs.1 with
  | .error m =>
      (.err (.wrapped "Failed to create a mapper: " (.merror m false)), d1)
  | .ok obj =>
    match d1.add id obj with
    | .error pmsg => (.fatal pmsg, d1)
    | .ok d2 => (.ok obj, d2)

/-- Models `Get` of `mappers.go` (v2, lines 516-546): a dependency hit
returns the object; otherwise the singleton factory resolves through
`resolveFactory`; without a factory the lookup falls back to the
parent, propagating its answer, and without a parent it returns a
`notFound` `merror`. -/
def MappersV2.get : MappersV2 → String → GoOutcome × MappersV2
  | .root deps facts, id =>
    match deps id with
    | some v => (.ok v, .root deps facts)
    | none =>
      match facts id with
      | some s => MappersV2.resolveFactory (.root deps facts) id s
      | none =>
          (.err (.merror ("Object " ++ id ++ " not found") true), .root deps facts)
  | .child deps facts p, id =>
    match deps id with
    | some v => (.ok v, .child deps facts p)
    | none =>
      match facts id with
      | some s => MappersV2.resolveFactory (.child deps facts p) id s
      | none =>
        let pr := MappersV2.get p id
        (pr.1, .child deps facts pr.2)

/-- The empty v2 registry. -/
def emptyV2 : MappersV2 :=
  .root (fun _ => none) (fun _ => none)

/-! ## The function-index registry of `logger.go`

This registry variant keeps, besides dependencies and factories, the
`findex` map from a type-pair key to the ordered list of `mfunc`
entries.  A factory is modelled by its outcome, as in v1. -/

/-- Models `mfunc` of `logger.go`: the reflect types of the function,
the method, the owning object id and the global flag. -/
structure MFunc where
  sourceRef : RTypeRef
  destRef : RTypeRef
  funcName : String
  objectId : String
  global : Bool
deriving DecidableEq

/-- Modelled from the spec: `toTypeName` is code of this repository that
is not under src (only its caller `GetFunc` in logger.go is).  Per the
spec and the `GetFuncByTypeName` documentation, a type name is the
package path and the type name joined with a `#` sign, and is never a
pointer type, so a reference names its dereferenced base type. -/
def toTypeName (r : RTypeRef) : String :=
  reflectQualifiedName r

/-- Modelled from the spec: `toTypeIndexFromString` is code of this
repository that is not under src (only its caller in logger.go is).
The function index maps a `(sourceTypeName, destTypeName)` pair, under
a key class such as `func:`, to its entry list, so the model joins the
three parts injectively. -/
def toTypeIndexFromString (cls sourceName destName : String) : String :=
  cls ++ sourceName ++ ":" ++ destName

/-- Modelled from the spec: `toTypeIndex` is `toTypeIndexFromString`
after `toTypeName` on both reflect types (`GetFunc` composes the two in
logger.go). -/
def toTypeIndex (cls : String) (s d : RTypeRef) : String :=
  toTypeIndexFromString cls (toTypeName s) (toTypeName d)

structure MappersM where
  dependencies : String → Option GoVal
  factories : String → Option (Except String GoVal)
  findex : String → Option (List MFunc)

/-- Models the reflect type handed to `addMethods`: its kind (interface
or not, which shifts the receiver offset) and its method set. -/
structure RType where
  isInterface : Bool
  methods : List RMethod

/-- Models `funcs` of `logger.go` (lines 393-434): for a `Converter` or
`Mapper` suffix, walk the method set; a method whose name matches the
pattern but whose arity is wrong is skipped, every other method is
appended in order, reading the source and destination types at the
offset-adjusted indices.  (Go would panic on an out-of-range reflect
index; the model reads the zero reference there.) -/
def funcsM (id : String) (typ : RType) : List MFunc :=
  let offset := if typ.isInterface then 0 else 1
  if goHasSfx id "Converter" then
    typ.methods.foldl (fun acc m =>
      if mapperFuncNameMatch m.name &&
          (m.ins.length ≠ 2 + offset ∨ (m.outs.length ≠ 2 ∧ m.outs.length ≠ 3)) then
        acc
      else
        acc ++ [{ sourceRef := m.ins.getD (1 + offset) zeroRef,
                  destRef := m.outs.getD 0 zeroRef,
                  funcName := m.name, objectId := id, global := false }]) []
  else if goHasSfx id "Mapper" then
    typ.methods.foldl (fun acc m =>
      if mapperFuncNameMatch m.name &&
          (m.ins.length ≠ 3 + offset ∨ m.outs.length ≠ 1) then
        acc
      else
        acc ++ [{ sourceRef := m.ins.getD (1 + offset) zeroRef,
                  destRef := m.ins.getD (2 + offset) zeroRef,
                  funcName := m.name, objectId := id, global := false }]) []
  else []

/-- Models `addMethods` of `logger.go` (lines 370-391): strip a version
suffix, return for `Helper` suffixes and `func:` keys, then append each
discovered function, with its global flag set, to the end of the index
list of its type pair (`LoadOrStore` of the empty list followed by
`Store` of the appended list). -/
def addMethodsM (d : MappersM) (name : String) (typ : RType) (global : Bool) :
    MappersM :=
  let name := stripVersionSfx name
  if goHasSfx name "Helper" then d
  else if goHasPfx name "func:" then d
  else
    (funcsM name typ).foldl (fun d f =>
      let f := { f with global := global }
      let index := toTypeIndex "func:" f.sourceRef f.destRef
      { d with findex :=
          mapStore d.findex index (((d.findex index).getD []) ++ [f]) }) d

/-- Models `Add` of `logger.go` (lines 309-317): store the object and
index its methods; `global` is true unless `WithNoGlobals` was given. -/
def MappersM.add (d : MappersM) (id : String) (obj : GoVal) (global : Bool) :
    MappersM :=
  addMethodsM { d with dependencies := mapStore d.dependencies id obj }
    id ⟨false, methodsOf obj⟩ global

/-- Models `AddFactory` of `logger.go` (lines 319-329): store the
factory and index the methods of the declared type. -/
def MappersM.addFactory (d : MappersM) (id : String) (typ : RType)
    (factory : Except String GoVal) (global : Bool) : MappersM :=
  addMethodsM { d with factories := mapStore d.factories id factory } id typ global

/-- Models `Get` of `logger.go` (lines 211-233): a dependency hit
returns the object; a factory error is wrapped as
`failed to create a mapper: %w` around a non-notFound `Error`; a
factory result is stored and returned; otherwise a notFound `Error`. -/
def MappersM.get (d : MappersM) (id : String) : GoOutcome × MappersM :=
  match d.dependencies id with
  | some v => (.ok v, d)
  | none =>
    match d.factories id with
    | some (.ok obj) =>
        (.ok obj, { d with dependencies := mapStore d.dependencies id obj })
    | some (.error m) =>
        (.err (.wrapped "failed to create a mapper: " (.merror m false)), d)
    | none => (.err (.merror ("object " ++ id ++ " not found") true), d)

/-- Models the descending index loop of `GetFuncByTypeName`
(`for i := len(lst) - 1; i >= 0; i--`): the first match from the end. -/
def revFind (l : List MFunc) (p : MFunc → Bool) : Option MFunc :=
  l.reverse.find? p

/-- Models the body executed for the entry the loop selects: resolve the
owner through `Get` (propagating its error) and extract the method value
by name (`reflect` panics when the owner value lacks the method). -/
def resolveEntry (d : MappersM) (e : MFunc) : GoOutcome × MappersM :=
  match d.get e.objectId with
  | (.ok v, d1) =>
      if (methodsOf v).any (fun m => m.name = e.funcName) then
        (.ok (.funcVal e.objectId e.funcName), d1)
      else (.fatal ("reflect: method " ++ e.funcName ++ " not found"), d1)
  | (.err er, d1) => (.err er, d1)
  | (.fatal m, d1) => (.fatal m, d1)

/-- Models `GetFuncByTypeName` of `logger.go` (lines 280-307): load the
index list for the pair, search it from the end for an entry that is
global when no owner id is given, or that belongs to the given owner,
and resolve it; a missing key or an exhausted search returns a notFound
`Error`. -/
def MappersM.getFuncByTypeName (d : MappersM) (id sourceName destName : String) :
    GoOutcome × MappersM :=
  match d.findex (toTypeIndexFromString "func:" sourceName destName) with
  | none =>
      (.err (.merror ("functions for " ++ sourceName ++ " -> " ++ destName ++ " not found") true), d)
  | some lst =>
    match revFind lst (fun e => (e.global && id = "") || e.objectId = id) with
    | some e => resolveEntry d e
    | none =>
        (.err (.merror ("functions for " ++ sourceName ++ " -> " ++ destName ++ " not found") true), d)

/-- Models `Merge` of `logger.go` (lines 331-356): dependencies and
factories of the other registry overwrite entries of this one; each
function-index list of the other registry is appended to the end of the
corresponding list of this one (`LoadOrStore` of the empty list, then
`Store` of the appended list). -/
def MappersM.merge (d other : MappersM) : MappersM :=
  { dependencies := fun k =>
      match other.dependencies k with
      | some v => some v
      | none => d.dependencies k,
    factories := fun k =>
      match other.factories k with
      | some f => some f
      | none => d.factories k,
    findex := fun k =>
      match other.findex k with
      | some lv => some (((d.findex k).getD []) ++ lv)
      | none => d.findex k }

/-- The empty logger-variant registry. -/
def emptyM : MappersM :=
  { dependencies := fun _ => none, factories := fun _ => none,
    findex := fun _ => none }

/-- C6 witness: the theorem applied to a concrete empty registry (miss)
and to a concrete registry whose factory fails (construction failure). -/
def c6fail : MappersV1 :=
  { dependencies := fun _ => none,
    factories := mapStore (fun _ => none) "BadMapper" (.result (.error "boom")) }

/-- Base registry of the C3 counterexample: the instance `obj 1` is
`Add`ed under FooMapper. -/
def c3base : MappersV1 :=
  match emptyV1.add "FooMapper" (.obj 1 []) with
  | .ok d => d
  | .error _ => emptyV1

/-- Other registry of the C3 counterexample: a factory producing
`obj 2` is registered under the same id FooMapper. -/
def c3other : MappersV1 :=
  match emptyV1.addFactory "FooMapper" (.obj 3 []) (.ok (.obj 2 [])) with
  | .ok d => d
  | .error _ => emptyV1

/-- C3 witness: the amended theorem applied at concrete registries for
each of its three parts. -/
def c3wOther : MappersV1 :=
  match emptyV1.add "FooMapper" (.obj 5 []) with
  | .ok d => d
  | .error _ => emptyV1

/-! ## C10: the name classification of `Add` -/

/-- The name condition of C10, written from the claim: after stripping a
trailing version suffix, the name ends in none of Mapper, Converter,
Helper and starts with neither the `mapperFunc:` nor the
`converterFunc:` key class. -/
def addRejectName (name : String) : Bool :=
  let n := stripVersionSfx name
  !(goHasSfx n "Mapper" || goHasSfx n "Converter" || goHasSfx n "Helper" ||
    goHasPfx n "mapperFunc:" || goHasPfx n "converterFunc:")

/-- Observed factory-invocation count of the singleton stored under an
id. -/
def singletonCalls (d : MappersV2) (id : String) : Nat :=
  match d.factories id with
  | some s => s.calls
  | none => 0

/-- C5 witness: a concrete registry with one factory-backed id; the
theorem is applied after computing the state the first `Get` leaves. -/
def c5reg : MappersV2 :=
  emptyV2.addFactory "FooMapper" (.ok (.obj 7 []))

def c5regAfter : MappersV2 := (MappersV2.get c5reg "FooMapper").2

/-- C9 witness: a concrete index list with two global entries of two
owners; the empty-id lookup selects the later (BMapper) entry, while
the explicit AMapper lookup selects the earlier AMapper entry although
a later entry exists for the same pair. -/
def c9eA : MFunc :=
  { sourceRef := zeroRef, destRef := zeroRef, funcName := "ModelToEntity",
    objectId := "AMapper", global := true }

def c9eB : MFunc :=
  { sourceRef := zeroRef, destRef := zeroRef, funcName := "ModelToEntity",
    objectId := "BMapper", global := true }

def c9reg : MappersM :=
  { dependencies := fun _ => none, factories := fun _ => none,
    findex := mapStore (fun _ => none) "func:S:D" [c9eA, c9eB] }

/-! ## The code synthesizer of `config.go`

The synthesizer is modelled as a line emitter: every `p(format, args)`
call of the source becomes one string in the emitted list, with the
format instantiated.  `MappingContext` (the variant of config.go lines
249-476) is threaded explicitly.  Generic type arguments of named types
are not modelled (no claim involves a generic type), so the
`TypeArgs()` sub-branch of `GetSource` is not reproduced. -/

/-- Models the `%05d` format: decimal, zero-padded to width 5. -/
def pad5 (n : Nat) : String :=
  let s := toString n
  if s.length < 5 then String.mk (List.replicate (5 - s.length) '0') ++ s else s

/-- Models `mappersName` of `util.go`: the two qualified names joined
with a colon. -/
def mappersName (sourceType destType : GoType) : String :=
  GetQualifiedTypeName sourceType ++ ":" ++ GetQualifiedTypeName destType

/-- Models the regexp replacement `pkgr.ReplaceAllString(path, "_")`
(`[^a-zA-Z0-9]` becomes an underscore). -/
def pkgrReplace (path : String) : String :=
  String.mk (path.data.map (fun ch => if ch.isAlphanum then ch else '_'))

/-- Models `MapperFuncField` of `config.go` (lines 263-275). -/
structure MapperFuncField where
  fieldName : String
  mapperFuncName : String
  source : GoType
  dest : GoType

/-- Models `ConverterFuncField` of `config.go` (lines 286-298). -/
structure ConverterFuncField where
  fieldName : String
  converterFuncName : String
  source : GoType
  dest : GoType

/-- Models `MappingContext` of `config.go` (lines 249-260); the two Go
maps become partial functions. -/
structure Mctx where
  absPkgPath : String
  aliasCount : Nat
  aliasBase : String
  imports : String → Option String
  importHashes : String → Option Nat
  varCount : Nat
  mapperFuncFields : List MapperFuncField
  mapperFuncCount : Nat
  converterFuncFields : List ConverterFuncField
  converterFuncCount : Nat

/-- Models `AddImport` (lines 342-361): nothing for the own package or
an already known path; otherwise derive the alias from the sanitized
path (with the `importHashes` counter appended when it is nonzero). -/
def Mctx.addImport (c : Mctx) (path : String) : Mctx :=
  if path = c.absPkgPath then c
  else
    match c.imports path with
    | some _ => c
    | none =>
      let h := pkgrReplace path
      let hashes :=
        match c.importHashes path with
        | none => mapStore c.importHashes path 0
        | some hv => mapStore c.importHashes path (hv + 1)
      let hv := (hashes path).getD 0
      let a := if hv = 0 then c.aliasBase ++ "_" ++ h
               else c.aliasBase ++ "_" ++ h ++ "_" ++ pad5 hv
      { c with imports := mapStore c.imports path a,
               importHashes := hashes,
               aliasCount := c.aliasCount + 1 }

/-- Models `GetImportAlias` (lines 364-371): add the import, then look
the alias up (the own package yields the empty alias). -/
def Mctx.getImportAlias (c : Mctx) (path : String) : String × Mctx :=
  let c := c.addImport path
  match c.imports path with
  | some v => (v, c)
  | none => ("", c)

/-- Models `NextVarCount` (lines 394-398). -/
def Mctx.nextVarCount (c : Mctx) : Nat × Mctx :=
  (c.varCount, { c with varCount := c.varCount + 1 })

/-- Models `AddMapperFuncField` (lines 400-421): nothing for equal
qualified names or an already known pair; otherwise append a fresh
`mapperNNNNN` field. -/
def Mctx.addMapperFuncField (c : Mctx) (sourceType destType : GoType) : Mctx :=
  let sname := GetQualifiedTypeName sourceType
  let dname := GetQualifiedTypeName destType
  if sname = dname then c
  else
    let mfn := mappersName sourceType destType
    if c.mapperFuncFields.any (fun m => m.mapperFuncName = mfn) then c
    else
      { c with
        mapperFuncCount := c.mapperFuncCount + 1,
        mapperFuncFields := c.mapperFuncFields ++
          [{ fieldName := "mapper" ++ pad5 c.mapperFuncCount,
             mapperFuncName := mfn, source := sourceType, dest := destType }] }

/-- Models `GetMapperFuncFieldName` (lines 424-432): the stored field of
the pair, if any (this config.go variant does not add on lookup). -/
def Mctx.getMapperFuncFieldName (c : Mctx) (sourceType destType : GoType) :
    Option MapperFuncField :=
  let mfn := mappersName sourceType destType
  c.mapperFuncFields.find? (fun m => m.mapperFuncName = mfn)

/-- Models `NewMappingContext` (lines 317-331). -/
def NewMappingContext (absPkgPath : String) : Mctx :=
  Mctx.addImport
    { absPkgPath := absPkgPath, aliasCount := 0, aliasBase := "pkg",
      imports := fun _ => none, importHashes := fun _ => none, varCount := 0,
      mapperFuncFields := [], mapperFuncCount := 0,
      converterFuncFields := [], converterFuncCount := 0 } "context"

/-- Models `GetSource` of `util.go` (lines 81-111): the alias-qualified
source text of a type, threading the import table. -/
def GetSource : GoType → Mctx → String × Mctx
  | .pointer e, c =>
      let (s, c) := GetSource e c
      ("*" ++ s, c)
  | .mapT k v, c =>
      let (ks, c) := GetSource k c
      let (vs, c) := GetSource v c
      ("map[" ++ ks ++ "]" ++ vs, c)
  | .slice e, c =>
      let (s, c) := GetSource e c
      ("[]" ++ s, c)
  | .array n e, c =>
      let (s, c) := GetSource e c
      ("[" ++ toString n ++ "]" ++ s, c)
  | .named pkg nm _u _ms, c =>
      if c.absPkgPath ≠ pkg then
        let (a, c) := c.getImportAlias pkg
        (a ++ "." ++ nm, c)
      else (nm, c)
  | .basic nm, c => (nm, c)
  | t, c => (t.render, c)

/-- Models the type test `_, ok := typ.(*types.Pointer)`. -/
def isPointerType : GoType → Bool
  | .pointer _ => true
  | _ => false

/-- Models `IsBuiltinType` of `util.go` (lines 208-222): strip pointers,
then true exactly when the underlying type carries a universe name. -/
def IsBuiltinType : GoType → Bool
  | .pointer e => IsBuiltinType e
  | t => universeTypeNames.contains (underlyingTypeName t)

/-- Models `GetPreferableTypeSource` of `util.go` (lines 194-205). -/
def GetPreferableTypeSource (typ : GoType) (c : Mctx) : String × Mctx :=
  match typ with
  | .pointer e =>
      if IsBuiltinType (.pointer e) then GetSource e c
      else GetSource (.pointer e) c
  | t =>
      if !IsBuiltinType t then
        let (s, c) := GetSource t c
        ("*" ++ s, c)
      else GetSource t c

/-- Modelled from the spec: `GetPointerTypeSource` is code of this
repository that is not under src (only its callers in config.go are);
following its sibling `GetStructPointerTypeSource` in internal/util.go
("a source code of a type with a pointer"), it renders the dereferenced
type behind one pointer. -/
def GetPointerTypeSource (typ : GoType) (c : Mctx) : String × Mctx :=
  match typ with
  | .pointer e =>
      let (s, c) := GetSource e c
      ("*" ++ s, c)
  | t =>
      let (s, c) := GetSource t c
      ("*" ++ s, c)

/-- Models `MapperFuncField.Signature` (config.go lines 278-283). -/
def MapperFuncField.signature (m : MapperFuncField) (c : Mctx) : String × Mctx :=
  let (ctxAlias, c) := c.getImportAlias "context"
  let (s1, c) := GetPreferableTypeSource m.source c
  let (s2, c) := GetPointerTypeSource m.dest c
  ("func(" ++ ctxAlias ++ ".Context, " ++ s1 ++ ", " ++ s2 ++ ") error", c)

/-! ### Field and method lookup of `util.go` -/

/-- A field as `GetField` returns it (`*types.Var`): name and type. -/
structure GoFieldRef where
  name : String
  typ : GoType

/-- A method as `GetMethod` returns it (`*types.Func`): name, parameter
types, result types. -/
structure GoFunc where
  name : String
  params : GoTypes
  results : GoTypes

/-- Models `GetStructType` of `util.go`: chase pointers and named types
down to a struct. -/
def GetStructType : GoType → Option GoFields
  | .pointer e => GetStructType e
  | .named _ _ u _ => GetStructType u
  | .structT fs => some fs
  | _ => none

/-- Models `GetNamedType` of `util.go`: chase pointers down to a named
type. -/
def GetNamedType : GoType → Option GoType
  | .pointer e => GetNamedType e
  | .named pkg nm u ms => some (.named pkg nm u ms)
  | _ => none

/-- Models `strings.Split(name, ".")` (and the segment production of
repeated `SplitN(name, ".", 2)`): the maximal dot-free segments, by
structural recursion over the characters. -/
def splitDotAux : List Char → List Char → List String
  | [], acc => [String.mk acc.reverse]
  | c :: rest, acc =>
      if c = '.' then String.mk acc.reverse :: splitDotAux rest []
      else splitDotAux rest (c :: acc)

def goSplitDot (s : String) : List String :=
  splitDotAux s.data []

/-- One name-matching step of `GetField` (exact name, or ASCII
case-insensitive when `ignoreCase` is set). -/
def goNameMatches (cand want : String) (ignoreCase : Bool) : Bool :=
  cand = want || (ignoreCase && goToLower cand = goToLower want)

/-- Single-segment field lookup of `GetField`. -/
def findField : GoFields → String → Bool → Option GoFieldRef
  | .nil, _, _ => none
  | .cons nm t rest, want, ic =>
      if goNameMatches nm want ic then some { name := nm, typ := t }
      else findField rest want ic

/-- Dotted-path field lookup of `GetField` of `util.go` (lines 28-52):
the source splits one segment at a time with `SplitN(name, ".", 2)` and
recurses through `GetStructType` of the matched field; the model splits
the whole path first and consumes it segment by segment, which is the
same traversal. -/
def getFieldParts : GoFields → List String → Bool → Option GoFieldRef
  | _, [], _ => none
  | st, [p], ic => findField st p ic
  | st, p :: rest, ic =>
      match findField st p ic with
      | some f =>
        match GetStructType f.typ with
        | some st2 => getFieldParts st2 rest ic
        | none => none
      | none => none

/-- Models `GetField` of `util.go`. -/
def GetField (st : GoFields) (name : String) (ignoreCase : Bool) :
    Option GoFieldRef :=
  getFieldParts st (goSplitDot name) ignoreCase

/-- Method set of a named type (empty for any other type; `GetMethod`
is only called on named types). -/
def typeMethods : GoType → GoMethods
  | .named _ _ _ ms => ms
  | _ => .nil

/-- Models `GetMethod` of `util.go` (lines 15-24). -/
def findMethod : GoMethods → String → Bool → Option GoFunc
  | .nil, _, _ => none
  | .cons nm ps rs rest, want, ic =>
      if goNameMatches nm want ic then some { name := nm, params := ps, results := rs }
      else findMethod rest want ic

def GetMethod (named : GoType) (name : String) (ignoreCase : Bool) : Option GoFunc :=
  findMethod (typeMethods named) name ignoreCase

/-- First element of a `GoTypes` list (`Results().At(0)` /
`Params().At(0)`; Go panics when empty, the embedded code only reads it
behind existence checks). -/
def GoTypes.head? : GoTypes → Option GoType
  | .nil => none
  | .cons t _ => some t

/-! ### `MappingValue` of `config.go` (lines 1011-1191) -/

inductive MappingValue where
  | localV (name : String) (typ : GoType)
  | objProp (base : String) (exportedFieldName : String)
            (exportedFieldType : GoType)
            (getter : Option GoFunc) (setter : Option GoFunc)

/-- Models `DisplayName`. -/
def MappingValue.displayName : MappingValue → String
  | .localV nm _ => nm
  | .objProp base f _ g s =>
      if f ≠ "" then base ++ "." ++ f
      else match g with
        | some gf => base ++ "." ++ gf.name ++ "()"
        | none =>
          match s with
          | some sf => base ++ "." ++ sf.name ++ "(v)"
          | none => ""

/-- Models `GetGetterSource`. -/
def MappingValue.getGetterSource : MappingValue → String
  | .localV nm _ => nm
  | .objProp base f _ g _ =>
      if f ≠ "" then base ++ "." ++ f
      else match g with
        | some gf => base ++ "." ++ gf.name ++ "()"
        | none => ""

/-- Models `CanGet`. -/
def MappingValue.canGet : MappingValue → Bool
  | .localV _ _ => true
  | .objProp _ f _ g _ => f ≠ "" || g.isSome

/-- Models `CanAddr`: a field is addressable, a getter only when its
first result is a pointer. -/
def MappingValue.canAddr : MappingValue → Bool
  | .localV _ _ => true
  | .objProp _ f _ g _ =>
      if f ≠ "" then true
      else match g with
        | some gf =>
          match gf.results.head? with
          | some (.pointer _) => true
          | _ => false
        | none => false

/-- Models `GetSetterSource`. -/
def MappingValue.getSetterSource : MappingValue → String → String
  | .localV nm _, v => nm ++ " = " ++ v
  | .objProp base f _ _ s, v =>
      if f ≠ "" then base ++ "." ++ f ++ " = " ++ v
      else match s with
        | some sf => base ++ "." ++ sf.name ++ "(" ++ v ++ ")"
        | none => ""

/-- Models `CanSet`. -/
def MappingValue.canSet : MappingValue → Bool
  | .localV _ _ => true
  | .objProp _ f _ _ s => f ≠ "" || s.isSome

/-- Models `Type()`.  Go returns nil when the value has neither field,
getter nor setter; that case is unreachable for accepted values and
maps to the unnamed empty basic type here. -/
def MappingValue.typeOf : MappingValue → GoType
  | .localV _ t => t
  | .objProp _ f ft g s =>
      if f ≠ "" then ft
      else match g with
        | some gf => (gf.results.head?).getD (.basic "")
        | none =>
          match s with
          | some sf => (sf.params.head?).getD (.basic "")
          | none => .basic ""

/-- Models `NewLocalMappingValue`. -/
def NewLocalMappingValue (name : String) (typ : GoType) : MappingValue :=
  .localV name typ

/-- Models `NewObjectPropertyMappingValue` (config.go lines 1090-1124):
an exported struct field (with the dotted base for nested paths) wins;
otherwise exported `SetName`/`Name` accessor methods form the value,
which is accepted when it can get or set. -/
def NewObjectPropertyMappingValue (base : String) (named : GoType)
    (name : String) (ignoreCase : Bool) : Option MappingValue :=
  let parts := goSplitDot name
  let baseName :=
    if parts.length > 1 then
      base ++ "." ++ String.intercalate "." (parts.dropLast)
    else base
  let fieldHit : Option MappingValue :=
    match GetStructType named with
    | some st =>
      match GetField st name ignoreCase with
      | some f =>
          if goExported f.name then
            some (.objProp baseName f.name f.typ none none)
          else none
      | none => none
    | none => none
  match fieldHit with
  | some v => some v
  | none =>
    let setter :=
      match GetMethod named ("Set" ++ name) ignoreCase with
      | some sf => if goExported sf.name then some sf else none
      | none => none
    let getter :=
      match GetMethod named name ignoreCase with
      | some gf => if goExported gf.name then some gf else none
      | none => none
    let ret : MappingValue := .objProp base "" (.basic "") getter setter
    if ret.canGet || ret.canSet then some ret else none

/-! ### The mapping specification model (config.go lines 642-1007) -/

/-- Models `OperandType`. -/
inductive OperandTy where
  | A
  | B
deriving DecidableEq

/-- Models `Inverted`. -/
def OperandTy.inverted : OperandTy → OperandTy
  | .A => .B
  | .B => .A

/-- Models `NilCollection`. -/
inductive NilCollection where
  | unknown
  | asNil
  | asEmpty
  | maxMark
deriving DecidableEq

/-- Models `FieldMapping` (the a and b paths). -/
structure FieldMapping where
  a : String
  b : String
deriving DecidableEq

/-- Models `FieldMapping.Value`. -/
def FieldMapping.value (m : FieldMapping) : OperandTy → String
  | .A => m.a
  | .B => m.b

/-- Models `FieldMappings.Pair`: the paired path of the first entry
whose own-side path equals the value. -/
def fieldsPair (fs : List FieldMapping) (t : OperandTy) (value : String) :
    Option String :=
  (fs.find? (fun m => m.value t = value)).map (fun m => m.value t.inverted)

/-- Models `Ignores.Contains`. -/
def ignoresContains (fs : List FieldMapping) (t : OperandTy) (value : String) :
    Bool :=
  fs.any (fun m => m.value t = value)

/-- Models `ObjectMapping`. -/
structure ObjectMapping where
  explicitOnly : Bool
  ignoreCase : Bool
  allowUnmapped : Bool
  fields : List FieldMapping
  ignores : List FieldMapping
  nilMap : NilCollection
  nilSlice : NilCollection

/-- Models `NewObjectMapping` (zero values). -/
def NewObjectMapping : ObjectMapping :=
  { explicitOnly := false, ignoreCase := false, allowUnmapped := false,
    fields := [], ignores := [], nilMap := .unknown, nilSlice := .unknown }

/-- Models `ObjectMapping.AddField`. -/
def ObjectMapping.addField (m : ObjectMapping) (t : OperandTy) (v1 v2 : String) :
    ObjectMapping :=
  if t = .A then { m with fields := m.fields ++ [{ a := v1, b := v2 }] }
  else { m with fields := m.fields ++ [{ a := v2, b := v1 }] }

/-! ### `genAssignStmt` (config.go lines 1819-1917)

The function is split as in the control flow of the source: the
delegate-guard prelude (emitted only when `GetMapperFuncFieldName`
finds a field), and the identity/cast tail emitted in every case.  The
single self-recursion of the source (the `CanCast` branch re-enters
`genAssignStmt` with the cast expression as the source value, where the
type names then coincide) is fuelled. -/

/-- The delegate argument of the guard body (source lines 1837-1851):
the possibly emitted `s := ...` capture line and the argument text. -/
def delegateArg (sv : MappingValue) : List String × String :=
  let sourceSig := sv.getGetterSource
  let sourceIsPointerPreferable := IsPointerPreferableType sv.typeOf
  let sourceIsPointer := isPointerType sv.typeOf
  if sourceIsPointerPreferable && sourceIsPointer then ([], sourceSig)
  else if sourceIsPointerPreferable && !sourceIsPointer then
    if sv.canAddr then ([], "&(" ++ sourceSig ++ ")")
    else (["s := " ++ sourceSig], "&s")
  else if !sourceIsPointerPreferable && sourceIsPointer then
    ([], "*(" ++ sourceSig ++ ")")
  else ([], sourceSig)

/-- The delegate destination of the guard body (source lines
1853-1867): the possibly emitted `var v ...` declaration and the
destination text. -/
def delegateDest (dv : MappingValue) (c : Mctx) : List String × String × Mctx :=
  if dv.canAddr then
    if isPointerType dv.typeOf then ([], dv.getGetterSource, c)
    else ([], "&(" ++ dv.getGetterSource ++ ")", c)
  else
    let (ds, c) := GetSource dv.typeOf c
    (["var v " ++ ds],
     (if isPointerType dv.typeOf then "v" else "&v"), c)

/-- The identity/cast tail of `genAssignStmt` (source lines 1880-1916
without the delegate-brace bookkeeping), parameterized over the
re-entry function for the `CanCast` branch. -/
def genAssignCoreWith
    (recur : MappingValue → MappingValue → Mctx → List String × Mctx)
    (sv dv : MappingValue) (c : Mctx) : List String × Mctx :=
  let sourceType := sv.typeOf
  let sourceSig := sv.getGetterSource
  let destType := dv.typeOf
  let sourceTypeName := GetQualifiedTypeName sourceType
  let sourceIsPointer := isPointerType sourceType
  let destTypeName := GetQualifiedTypeName destType
  let destIsPointer := isPointerType destType
  if sourceTypeName = destTypeName then
    if sourceIsPointer && destIsPointer then
      ([dv.getSetterSource sourceSig], c)
    else if sourceIsPointer && !destIsPointer then
      ([dv.getSetterSource ("*(" ++ sourceSig ++ ")")], c)
    else if !sourceIsPointer && destIsPointer then
      if sv.canAddr then ([dv.getSetterSource ("&(" ++ sourceSig ++ ")")], c)
      else
        let (a, c) := c.nextVarCount
        (["s" ++ toString a ++ " := %!(EXTRA string=" ++ sourceSig ++ ")",
          dv.getSetterSource ("&s" ++ toString a)], c)
    else ([dv.getSetterSource sourceSig], c)
  else if CanCast sourceType destType then
    let (ds, c) := GetSource destType c
    recur (NewLocalMappingValue (ds ++ "(" ++ sourceSig ++ ")") destType) dv c
  else ([], c)

/-- The whole of `genAssignStmt`, parameterized over the re-entry
function: with a delegate field for the type pair, the guard prelude,
the guarded delegate call, and the identity/cast tail inside the else
branch; without one, the tail alone. -/
def genAssignWith
    (recur : MappingValue → MappingValue → Mctx → List String × Mctx)
    (sv dv : MappingValue) (c : Mctx) : List String × Mctx :=
  match c.getMapperFuncFieldName sv.typeOf dv.typeOf with
  | none => genAssignCoreWith recur sv dv c
  | some mf =>
    let (argLines, argName) := delegateArg sv
    let (destLines, destName, c) := delegateDest dv c
    let (coreLines, c) := genAssignCoreWith recur sv dv c
    (["if m." ++ mf.fieldName ++ " != nil \x7b"] ++ argLines ++ destLines ++
      ["  if err := m." ++ mf.fieldName ++ "(ctx, " ++ argName ++ ", " ++
          destName ++ "); err != nil \x7b",
        "    return err"] ++
      (if dv.canAddr then ["\x7d"]
       else ["  \x7d else \x7b", dv.getSetterSource "v", "  \x7d"]) ++
      ["\x7d else \x7b "] ++ coreLines ++ ["\x7d"], c)

/-- Models `genAssignStmt`, with the single self-recursion of the
`CanCast` branch fuelled. -/
def genAssignStmt : Nat → MappingValue → MappingValue → Mctx → List String × Mctx
  | 0, sv, dv, c => genAssignWith (fun _ _ c0 => ([], c0)) sv dv c
  | fuel + 1, sv, dv, c => genAssignWith (genAssignStmt fuel) sv dv c

/-- The identity/cast tail with the fuelled re-entry (what
`genAssignStmt` emits when no delegate field exists). -/
def genAssignFallback : Nat → MappingValue → MappingValue → Mctx → List String × Mctx
  | 0, sv, dv, c => genAssignCoreWith (fun _ _ c0 => ([], c0)) sv dv c
  | fuel + 1, sv, dv, c => genAssignCoreWith (genAssignStmt fuel) sv dv c

/-! ### `genFieldMapStmts` (config.go lines 1704-1817)

A per-field-pair statement block: arrays, slices and maps loop over
their elements (converting each element through a recursive call),
channels are skipped with a log line, everything else is a single
assignment.  The fuel bounds the recursion into element types. -/

def genFieldMapStmts :
    Nat → MappingValue → MappingValue → ObjectMapping → Mctx →
    Except String (List String × Mctx)
  | 0, _, _, _, _ => .error "model: element recursion fuel exhausted"
  | fuel + 1, sv, dv, mapping, c =>
    let sourceType := sv.typeOf
    let destType := dv.typeOf
    let c := c.addMapperFuncField sourceType destType
    match sourceType with
    | .array _len selem =>
      match destType with
      | .array _dlen delem =>
        let (a, c) := c.nextVarCount
        let (dts, c) := GetSource dv.typeOf c
        let l1 := "var arr" ++ toString a ++ " " ++ dts
        let (i, c) := c.nextVarCount
        let l2 := "for i" ++ toString i ++ ", elm := range " ++
                    sv.getGetterSource ++ " \x7b"
        let (n, c) := c.nextVarCount
        let (des, c) := GetSource delem c
        let l3 := "\t\tvar tmp" ++ toString n ++ " " ++ des
        match genFieldMapStmts fuel (NewLocalMappingValue "elm" selem)
            (NewLocalMappingValue ("tmp" ++ toString n) delem) mapping c with
        | .error e => .error e
        | .ok (inner, c) =>
          let (asn1, c) := genAssignStmt fuel
            (NewLocalMappingValue ("tmp" ++ toString n) selem)
            (NewLocalMappingValue
              ("arr" ++ toString a ++ "[i" ++ toString i ++ "]") delem) c
          let (asn2, c) := genAssignStmt fuel
            (NewLocalMappingValue ("arr" ++ toString a) dv.typeOf) dv c
          .ok ([l1, l2, l3] ++ inner ++ asn1 ++ ["\x7d"] ++ asn2, c)
      | _ =>
        .error ("type mismatch: " ++ sv.displayName ++ " and " ++
          dv.displayName ++ " should be an array")
    | .slice selem =>
      match destType with
      | .slice delem =>
        let (s, c) := c.nextVarCount
        let (dts, c) := GetSource dv.typeOf c
        let l1 := "var sl" ++ toString s ++ " " ++ dts
        let l2 := "if " ++ sv.getGetterSource ++ " == nil \x7b"
        let (policyLines, c) :=
          match mapping.nilSlice with
          | .asNil => ([dv.getSetterSource "nil"], c)
          | .asEmpty =>
            let (ds2, c) := GetSource destType c
            ([dv.getSetterSource ("make(" ++ ds2 ++ ", 0)")], c)
          | _ => ([], c)
        let l3 := "\x7d else \x7b"
        let l4 := "for _, elm := range " ++ sv.getGetterSource ++ " \x7b"
        let (n, c) := c.nextVarCount
        let (des, c) := GetSource delem c
        let l5 := "var tmp" ++ toString n ++ " " ++ des
        match genFieldMapStmts fuel (NewLocalMappingValue "elm" selem)
            (NewLocalMappingValue ("tmp" ++ toString n) delem) mapping c with
        | .error e => .error e
        | .ok (inner, c) =>
          let l6 := "sl" ++ toString s ++ " = append(sl" ++ toString s ++
                      ", tmp" ++ toString n ++ ")"
          let (asn, c) := genAssignStmt fuel
            (NewLocalMappingValue ("sl" ++ toString s) dv.typeOf) dv c
          .ok ([l1, l2] ++ policyLines ++ [l3, l4, l5] ++ inner ++
                [l6, "\x7d"] ++ asn ++ ["\x7d"], c)
      | _ =>
        .error ("type mismatch: " ++ sv.displayName ++ " and " ++
          dv.displayName ++ " should be a slice")
    | .mapT _skey selem =>
      match destType with
      | .mapT _dkey delem =>
        let l1 := "if " ++ sv.getGetterSource ++ " == nil \x7b"
        let (policyLines, c) :=
          match mapping.nilMap with
          | .asNil => ([dv.getSetterSource "nil"], c)
          | .asEmpty =>
            let (ds2, c) := GetSource destType c
            ([dv.getSetterSource ("make(" ++ ds2 ++ ")")], c)
          | _ => ([], c)
        let l2 := "\x7d else \x7b"
        let (m, c) := c.nextVarCount
        let (dts, c) := GetSource destType c
        let l3 := "map" ++ toString m ++ " := make(" ++ dts ++ ")"
        let l4 := "for key, elm := range " ++ sv.getGetterSource ++ " \x7b"
        let (n, c) := c.nextVarCount
        let (des, c) := GetSource delem c
        let l5 := "var tmp" ++ toString n ++ " " ++ des
        match genFieldMapStmts fuel (NewLocalMappingValue "elm" selem)
            (NewLocalMappingValue ("tmp" ++ toString n) delem) mapping c with
        | .error e => .error e
        | .ok (inner, c) =>
          let (asn1, c) := genAssignStmt fuel
            (NewLocalMappingValue ("tmp" ++ toString n) selem)
            (NewLocalMappingValue ("map" ++ toString m ++ "[key]") delem) c
          let (asn2, c) := genAssignStmt fuel
            (NewLocalMappingValue ("map" ++ toString m) dv.typeOf) dv c
          .ok ([l1] ++ policyLines ++ [l2, l3, l4, l5] ++ inner ++ asn1 ++
                ["\x7d"] ++ asn2 ++ ["\x7d"], c)
      | _ =>
        .error ("type mismatch: " ++ sourceType.render ++ " and " ++
          destType.render ++ " should be a map")
    | .chanT _ => .ok ([], c)
    | _ =>
      let (asn, c) := genAssignStmt fuel sv dv c
      .ok (asn, c)

/-! ### Runtime meaning of the emitted slice-mapping block

The block emitted for a slice-typed field pair (source lines 1742-1775)
is, for a destination element type `D`:

    var slN []D
    if SRC == nil {
      DEST = nil            -- policy nil
      DEST = make([]D, 0)   -- policy empty
                            -- nothing for the unknown policy
    } else {
      for _, elm := range SRC {
        var tmpM D
        ...element conversion into tmpM...
        slN = append(slN, tmpM)
      }
      DEST = slN
    }

Its denotation on Go slice values (nil or a list of elements) follows:
`slN` starts nil; `append` on a nil slice allocates. -/

/-- Models Go `append` of one element (a nil slice becomes a fresh
one-element slice). -/
def goAppend : Option (List β) → β → Option (List β)
  | none, x => some [x]
  | some xs, x => some (xs ++ [x])

/-- The runtime meaning of the emitted slice-mapping block, with the
element conversion abstracted as a function. -/
def sliceMapExec (policy : NilCollection) (elemMap : α → β)
    (src : Option (List α)) (dest : Option (List β)) : Option (List β) :=
  match src with
  | none =>
    match policy with
    | .asNil => none
    | .asEmpty => some []
    | _ => dest
  | some xs => xs.foldl (fun sl x => goAppend sl (elemMap x)) none

/-! ### `genMapFuncBody` (config.go lines 1586-1702)

`genMapFuncBody`, its source-field loop and its dotted-path loop are
mutually recursive (a dotted correspondence re-enters the body on the
nested field).  They are combined into one fuelled function `genRun`
over a call descriptor, so that every recursion consumes fuel and the
definition stays structurally recursive. -/

/-- Models the `types.Object` operand handed to `genMapFuncBody`: its
package name, its name and its type. -/
structure GoOperand where
  pkgName : String
  name : String
  typ : GoType

/-- The ordered field list of a struct, as the source-field loop
(`for i := 0; i < sourceStruct.NumFields(); i++`) walks it. -/
def fieldsList : GoFields → List GoFieldRef
  | .nil => []
  | .cons nm t rest => { name := nm, typ := t } :: fieldsList rest

/-- Models `strings.SplitN(s, ".", 2)`. -/
def splitN2 (s : String) : List String :=
  match goSplitDot s with
  | [] => []
  | [x] => [x]
  | x :: rest => [x, String.intercalate "." rest]

/-- Models `strings.Replace(s, "*", "&", 1)`. -/
def replaceFirstStar : List Char → List Char
  | [] => []
  | '*' :: rest => '&' :: rest
  | ch :: rest => ch :: replaceFirstStar rest

/-- The nil-guard initializer lines for a dotted destination path
(source lines 1639-1650): for every proper prefix of the path that
names a field of the destination struct, emit an if-nil block that
allocates the intermediate container. -/
def nestGuardLines (destNameBase : String) (destStruct : GoFields)
    (destName : String) (ignoreCase : Bool) (c : Mctx) : List String × Mctx :=
  let parts := goSplitDot destName
  if parts.length > 1 then
    ((List.range parts.length).drop 1).foldl (fun acc i =>
      let (lines, c) := acc
      let nestName := String.intercalate "." (parts.take i)
      match GetField destStruct nestName ignoreCase with
      | some nestField =>
        let (ns, c) := GetSource nestField.typ c
        (lines ++
          ["if " ++ destNameBase ++ "." ++ nestName ++ " == nil \x7b",
           "  " ++ destNameBase ++ "." ++ nestName ++ " = " ++
             String.mk (replaceFirstStar ns.data) ++ "\x7b\x7d",
           "\x7d"], c)
      | none => (lines, c)) ([], c)
  else ([], c)

/-- Call descriptor of `genRun`: the body of `genMapFuncBody`, its
source-field loop, or its dotted-correspondence loop. -/
inductive GenCall where
  | body (source : GoOperand) (sourceNameBase : String) (dest : GoOperand)
      (destNameBase : String) (mapping : ObjectMapping) (t : OperandTy)
  | fieldsLoop (source : GoOperand) (sourceNameBase : String) (dest : GoOperand)
      (destNameBase : String) (sourceNamed destNamed : GoType)
      (destStruct : GoFields) (mapping : ObjectMapping) (t : OperandTy)
      (flds : List GoFieldRef)
  | nestedLoop (source : GoOperand) (sourceNameBase : String) (dest : GoOperand)
      (destNameBase : String) (sourceStruct : GoFields)
      (mapping : ObjectMapping) (t : OperandTy) (fms : List FieldMapping)

/-- Models `genMapFuncBody` and its two loops.  The `body` call checks
the operands, handles a whole-operand `*` correspondence, and otherwise
runs the source-field loop followed by the dotted-correspondence loop.
The `fieldsLoop` call processes one source field after the other:
ignored, inaccessible and (under `ExplicitOnly`) unpaired fields are
skipped; an explicit pair maps to the paired path (with nil-guard
initializers for dotted paths, failing when the destination cannot be
resolved); an implicit same-named lookup fails with the unmapped-field
error unless `AllowUnmapped` skips it.  The `nestedLoop` call re-enters
the body for each dotted source path with a one-field explicit nested
mapping. -/
def genRun : Nat → GenCall → Mctx → Except String (List String × Mctx)
  | 0, _, _ => .error "model: generation fuel exhausted"
  | fuel + 1, call, c =>
    match call with
    | .body source sourceNameBase dest destNameBase mapping t =>
      match GetStructType source.typ with
      | none => .error (source.typ.render ++ " is not a struct")
      | some sourceStruct =>
      match GetNamedType source.typ with
      | none => .error (source.typ.render ++ " is not a named type")
      | some sourceNamed =>
      match GetStructType dest.typ with
      | none => .error (dest.typ.render ++ " is not a struct")
      | some destStruct =>
      match GetNamedType dest.typ with
      | none => .error (dest.typ.render ++ " is not a named type")
      | some destNamed =>
      match fieldsPair mapping.fields t "*" with
      | some destName =>
        match GetField destStruct destName mapping.ignoreCase with
        | none => .error "model: nil dereference in embedded mapping (destination field not found)"
        | some destField =>
          genFieldMapStmts fuel (NewLocalMappingValue sourceNameBase destField.typ)
            (NewLocalMappingValue (destNameBase ++ "." ++ destName) destField.typ)
            mapping c
      | none =>
        match genRun fuel (.fieldsLoop source sourceNameBase dest destNameBase
            sourceNamed destNamed destStruct mapping t (fieldsList sourceStruct)) c with
        | .error e => .error e
        | .ok (lines1, c) =>
          match genRun fuel (.nestedLoop source sourceNameBase dest destNameBase
              sourceStruct mapping t mapping.fields) c with
          | .error e => .error e
          | .ok (lines2, c) => .ok (lines1 ++ lines2, c)
    | .fieldsLoop source sourceNameBase dest destNameBase sourceNamed destNamed
        destStruct mapping t flds =>
      match flds with
      | [] => .ok ([], c)
      | f :: rest =>
        if ignoresContains mapping.ignores t f.name then
          genRun fuel (.fieldsLoop source sourceNameBase dest destNameBase
            sourceNamed destNamed destStruct mapping t rest) c
        else
          match NewObjectPropertyMappingValue sourceNameBase sourceNamed f.name
              mapping.ignoreCase with
          | none =>
            genRun fuel (.fieldsLoop source sourceNameBase dest destNameBase
              sourceNamed destNamed destStruct mapping t rest) c
          | some sourceValue =>
            if !sourceValue.canGet then
              genRun fuel (.fieldsLoop source sourceNameBase dest destNameBase
                sourceNamed destNamed destStruct mapping t rest) c
            else
              match fieldsPair mapping.fields t f.name with
              | some destName =>
                if destName = "*" then
                  match genFieldMapStmts fuel sourceValue
                      (NewLocalMappingValue destNameBase sourceValue.typeOf)
                      mapping c with
                  | .error e => .error e
                  | .ok (lines, c) =>
                    match genRun fuel (.fieldsLoop source sourceNameBase dest
                        destNameBase sourceNamed destNamed destStruct mapping t rest) c with
                    | .error e => .error e
                    | .ok (ls, c) => .ok (lines ++ ls, c)
                else
                  match NewObjectPropertyMappingValue destNameBase destNamed
                      destName mapping.ignoreCase with
                  | none =>
                    .error ("Could not map a field: \x27" ++ source.pkgName ++
                      "." ++ sourceValue.getGetterSource ++ "\x27 to \x27" ++
                      destName ++ "\x27")
                  | some dv =>
                    if !dv.canSet then
                      .error ("Could not map a field: \x27" ++ source.pkgName ++
                        "." ++ sourceValue.getGetterSource ++ "\x27 to \x27" ++
                        destName ++ "\x27")
                    else
                      let (guardLines, c) := nestGuardLines destNameBase
                        destStruct destName mapping.ignoreCase c
                      match genFieldMapStmts fuel sourceValue dv mapping c with
                      | .error e => .error e
                      | .ok (lines, c) =>
                        match genRun fuel (.fieldsLoop source sourceNameBase dest
                            destNameBase sourceNamed destNamed destStruct mapping t rest) c with
                        | .error e => .error e
                        | .ok (ls, c) => .ok (guardLines ++ lines ++ ls, c)
              | none =>
                if !mapping.explicitOnly then
                  match NewObjectPropertyMappingValue destNameBase destNamed
                      f.name mapping.ignoreCase with
                  | some dv =>
                    if dv.canSet then
                      match genFieldMapStmts fuel sourceValue dv mapping c with
                      | .error e => .error e
                      | .ok (lines, c) =>
                        match genRun fuel (.fieldsLoop source sourceNameBase dest
                            destNameBase sourceNamed destNamed destStruct mapping t rest) c with
                        | .error e => .error e
                        | .ok (ls, c) => .ok (lines ++ ls, c)
                    else if mapping.allowUnmapped then
                      genRun fuel (.fieldsLoop source sourceNameBase dest
                        destNameBase sourceNamed destNamed destStruct mapping t rest) c
                    else
                      .error ("Unmapped field: \x27" ++ source.pkgName ++ "." ++
                        source.name ++ "." ++ f.name ++ "\x27")
                  | none =>
                    if mapping.allowUnmapped then
                      genRun fuel (.fieldsLoop source sourceNameBase dest
                        destNameBase sourceNamed destNamed destStruct mapping t rest) c
                    else
                      .error ("Unmapped field: \x27" ++ source.pkgName ++ "." ++
                        source.name ++ "." ++ f.name ++ "\x27")
                else
                  genRun fuel (.fieldsLoop source sourceNameBase dest destNameBase
                    sourceNamed destNamed destStruct mapping t rest) c
    | .nestedLoop source sourceNameBase dest destNameBase sourceStruct mapping t fms =>
      match fms with
      | [] => .ok ([], c)
      | fm :: rest =>
        let sourceFieldName := fm.value t
        let destFieldName := fm.value t.inverted
        let parts := splitN2 sourceFieldName
        if parts.length > 1 then
          match GetField sourceStruct (parts.headD "") mapping.ignoreCase with
          | none =>
            genRun fuel (.nestedLoop source sourceNameBase dest destNameBase
              sourceStruct mapping t rest) c
          | some f =>
            let nm0 := { NewObjectMapping with explicitOnly := true }
            let nm1 := nm0.addField t (parts.getD 1 "") destFieldName
            let nestMapping := { nm1 with ignoreCase := mapping.ignoreCase }
            match genRun fuel (.body
                { pkgName := source.pkgName, name := f.name, typ := f.typ }
                (sourceNameBase ++ "." ++ parts.headD "") dest destNameBase
                nestMapping t) c with
            | .error e => .error e
            | .ok (lines, c) =>
              match genRun fuel (.nestedLoop source sourceNameBase dest
                  destNameBase sourceStruct mapping t rest) c with
              | .error e => .error e
              | .ok (ls, c) => .ok (lines ++ ls, c)
        else
          genRun fuel (.nestedLoop source sourceNameBase dest destNameBase
            sourceStruct mapping t rest) c

/-- Models `genMapFuncBody` proper. -/
def genMapFuncBody (fuel : Nat) (source : GoOperand) (sourceNameBase : String)
    (dest : GoOperand) (destNameBase : String) (mapping : ObjectMapping)
    (t : OperandTy) (c : Mctx) : Except String (List String × Mctx) :=
  genRun fuel (.body source sourceNameBase dest destNameBase mapping t) c

/-- Models the delegate-binding emission of `Generate` (config.go lines
1481-1488): one `GetMapperFunc` lookup block per stored delegate field,
in field order. -/
def initMapperFieldLines : List MapperFuncField → Mctx → List String × Mctx
  | [], c => ([], c)
  | mf :: rest, c =>
    let (sig, c) := mf.signature c
    let lines :=
      ["if obj, err := mapperGetter.GetMapperFunc(\"" ++
          GetQualifiedTypeName mf.source ++ "\", \"" ++
          GetQualifiedTypeName mf.dest ++ "\"); err == nil \x7b",
       "  m." ++ mf.fieldName ++ " = obj.(" ++ sig ++ ")",
       "\x7d"]
    let (ls, c) := initMapperFieldLines rest c
    (lines ++ ls, c)

/-! ## C8: delegate fields are deduplicated, bound once, and nil-guarded -/

/-- The names of the stored delegate fields. -/
def mapperFieldNames (c : Mctx) : List String :=
  c.mapperFuncFields.map (fun m => m.mapperFuncName)

/-! ## C4: the nil-slice policy of the slice-field block -/

def c4mapping : ObjectMapping := { NewObjectMapping with nilSlice := .asEmpty }

def c4call : Except String (List String × Mctx) :=
  genFieldMapStmts 2 (.localV "v.S" (.slice (.basic "int")))
    (.localV "d" (.slice (.basic "int"))) c4mapping (NewMappingContext "app")

def c4lines : List String :=
  match c4call with
  | .ok (l, _) => l
  | .error _ => []

def c4ctx2 : Mctx :=
  match c4call with
  | .ok (_, c) => c
  | .error _ => NewMappingContext "app"

def c8sv : MappingValue := .localV "v.Src" (.basic "int")

def c8dv : MappingValue := .localV "dst" (.basic "int64")

def c8dvStr : MappingValue := .localV "dst" (.basic "string")

def c8ctx : Mctx :=
  (NewMappingContext "app").addMapperFuncField (.basic "int") (.basic "int64")

def c8mf : MapperFuncField :=
  { fieldName := "mapper" ++ pad5 0,
    mapperFuncName := mappersName (.basic "int") (.basic "int64"),
    source := .basic "int", dest := .basic "int64" }

def c2srcTy : GoType :=
  .named "app" "Src" (.structT (.cons "X" (.basic "int") .nil)) .nil

def c2dstTy : GoType :=
  .named "app" "Dst" (.structT (.cons "Y" (.basic "int") .nil)) .nil

def c2srcOp : GoOperand := { pkgName := "app", name := "Src", typ := c2srcTy }

def c2dstOp : GoOperand := { pkgName := "app", name := "Dst", typ := c2dstTy }

def c2fld : GoFieldRef := { name := "X", typ := .basic "int" }

def c2mapU : ObjectMapping := { NewObjectMapping with allowUnmapped := true }

def c7srcStruct : GoFields :=
  .cons "X" (.basic "int") (.cons "Y" (.basic "int") .nil)

def c7dstStruct : GoFields :=
  .cons "Y" (.basic "int") (.cons "X" (.basic "int") .nil)

def c7srcTy : GoType := .named "app" "Src" (.structT c7srcStruct) .nil

def c7dstTy : GoType := .named "app" "Dst" (.structT c7dstStruct) .nil

def c7srcOp : GoOperand := { pkgName := "app", name := "Src", typ := c7srcTy }

def c7dstOp : GoOperand := { pkgName := "app", name := "Dst", typ := c7dstTy }

/-! ## C1: `CanCast` on same-signedness bounded integers

The claim says `CanCast` accepts exactly the strictly widening casts in
each signedness family.  The `int` family branch of the source does
return true exactly for `dbit > sbit`, but the `uint` family branch
compares the other way around (`if dbit < sbit { return true }`), so a
widening `uint32 → uint64` cast is rejected while the lossy narrowing
`uint64 → uint32` is accepted — contradicting the comment directly above
the branch ("A small size integer can be casted into a large size
integer") and the function documentation ("returns true if sourceType
can be (safely) casted"). -/

/-- C1: evaluation of `CanCast` at the inputs where the code contradicts
the claim: the widening `uint32 → uint64` is rejected and the narrowing
`uint64 → uint32` is accepted, while the `int` family behaves as
claimed. -/
theorem canCast_uint_branch_reversed :
    CanCast (GoType.basic "uint32") (GoType.basic "uint64") = false ∧
    CanCast (GoType.basic "uint64") (GoType.basic "uint32") = true ∧
    CanCast (GoType.basic "int32") (GoType.basic "int64") = true ∧
    CanCast (GoType.basic "int64") (GoType.basic "int32") = false := by
  refine ⟨?_, ?_, ?_, ?_⟩ <;> rfl

/-- Stripping a version suffix preserves any prefix whose last character
is neither a digit nor `v`/`V`: the stripped trailing run consists of
`v`/`V` and digits only, so it cannot reach back across such a
character. -/
lemma goHasPfx_stripVersionSfx (id p : String) (h : goHasPfx id p = true)
    (c : Char) (hc : p.data.getLast? = some c)
    (hcd : c.isDigit = false) (hcv : c ≠ 'v') (hcV : c ≠ 'V') :
    goHasPfx (stripVersionSfx id) p = true := by
  unfold stripVersionSfx
  split
  case h_2 => exact h
  case h_1 d0 ds ch rest heq₁ heq₂ =>
    by_cases hch : (ch = 'v' || ch = 'V') = true
    · simp only [hch, if_true]
      have hsplit : (d0 :: ds) ++ (ch :: rest) = id.data.reverse := by
        rw [← heq₁, ← heq₂]; exact List.takeWhile_append_dropWhile _ _
      have hid : id.data = rest.reverse ++ ([ch] ++ (d0 :: ds).reverse) := by
        have := congrArg List.reverse hsplit
        simpa [List.reverse_append] using this.symm
      have hpfx : p.data <+: id.data :=
        List.isPrefixOf_iff_prefix.mp h
      have hR : rest.reverse <+: id.data := by
        rw [hid]; exact List.prefix_append _ _
      rcases le_or_lt p.data.length rest.reverse.length with hle | hlt
      · have : p.data <+: rest.reverse :=
          List.prefix_of_prefix_length_le hpfx hR hle
        simpa [goHasPfx] using List.isPrefixOf_iff_prefix.mpr this
      · exfalso
        have hRp : rest.reverse <+: p.data :=
          List.prefix_of_prefix_length_le hR hpfx (le_of_lt hlt)
        obtain ⟨q, hq⟩ := hRp
        obtain ⟨t, ht⟩ := hpfx
        have hqne : q ≠ [] := by
          intro hq0
          rw [hq0, List.append_nil] at hq
          rw [← hq] at hlt
          exact lt_irrefl _ hlt
        have hqt : q ++ t = [ch] ++ (d0 :: ds).reverse := by
          have : rest.reverse ++ (q ++ t) = rest.reverse ++ ([ch] ++ (d0 :: ds).reverse) := by
            rw [← List.append_assoc, hq, ht, hid]
          exact List.append_cancel_left this
        have hqpfx : q <+: [ch] ++ (d0 :: ds).reverse := ⟨t, hqt⟩
        have hclast : q.getLast? = some c := by
          rw [← hq] at hc
          rwa [List.getLast?_append_of_ne_nil _ hqne] at hc
        have hcq : c ∈ q := List.mem_of_mem_getLast? hclast
        have hcin : c ∈ [ch] ++ (d0 :: ds).reverse := hqpfx.subset hcq
        rcases List.mem_append.mp hcin with hhd | htl
        · have : c = ch := by simpa using hhd
          rcases Bool.or_eq_true_iff.mp hch with h1 | h2
          · exact hcv (this.trans (by simpa using h1))
          · exact hcV (this.trans (by simpa using h2))
        · have hmem : c ∈ (d0 :: ds) := by
            simpa using (List.mem_reverse.mp htl)
          have : c.isDigit = true := by
            have := heq₁ ▸ hmem
            exact List.mem_takeWhile_imp this
          rw [this] at hcd; exact Bool.noConfusion hcd
    · simp only [hch, if_false]
      exact h

/-! ## Helper lemmas shared by the registry theorems -/

/-- A prefix of a string is a prefix of any extension of it. -/
lemma goHasPfx_append (a b s : String) (h : goHasPfx a b = true) :
    goHasPfx (a ++ s) b = true := by
  have hb : b.data <+: a.data := List.isPrefixOf_iff_prefix.mp h
  have : b.data <+: (a ++ s).data := by
    rw [String.data_append]
    exact hb.trans (List.prefix_append _ _)
  simpa [goHasPfx] using List.isPrefixOf_iff_prefix.mpr this

/-! ## C6: `Get` distinguishes lookup misses from construction failures -/

/-- C6: in the v1 registry, `Get(id)` yields an error whose `NotFound()`
flag (read through the unwrap chain) is true exactly when neither a
dependency nor a factory is stored under `id`; and when a stored user
factory itself fails, `Get` yields an error whose flag is false. -/
theorem getV1_notFound_distinguishes (d : MappersV1) (id : String) (fuel : Nat) :
    ((∃ e, (getV1 fuel d id).1 = .err e ∧ e.notFoundFlag = true) ↔
      (d.dependencies id = none ∧ d.factories id = none)) ∧
    (∀ m, d.dependencies id = none → d.factories id = some (.result (.error m)) →
      ∃ e, (getV1 fuel d id).1 = .err e ∧ e.notFoundFlag = false) := by
  constructor
  · constructor
    · rintro ⟨e, he, hflag⟩
      cases hd : d.dependencies id with
      | some v => simp [getV1, hd] at he
      | none =>
        cases hf : d.factories id with
        | none => exact ⟨rfl, rfl⟩
        | some fct =>
          exfalso
          cases fct with
          | result r =>
            cases r with
            | ok v =>
              cases hadd : MappersV1.add d id v with
              | error pm => simp [getV1, hd, hf, hadd] at he
              | ok dd => simp [getV1, hd, hf, hadd] at he
            | error m =>
              simp [getV1, hd, hf] at he
              rw [← he] at hflag
              simp [MErr.notFoundFlag] at hflag
          | methodOf owner mn =>
            cases fuel with
            | zero => simp [getV1, hd, hf] at he
            | succ fuel' =>
              rcases hg : getV1 fuel' d owner with ⟨out, d1⟩
              cases out with
              | ok v =>
                by_cases hm : (methodsOf v).any (fun m => m.name = mn)
                · cases hadd : MappersV1.add d1 id (.funcVal owner mn) with
                  | error pm => simp [getV1, hd, hf, hg, hm, hadd] at he
                  | ok dd => simp [getV1, hd, hf, hg, hm, hadd] at he
                · simp [getV1, hd, hf, hg, hm] at he
              | err e2 => simp [getV1, hd, hf, hg] at he
              | fatal m2 => simp [getV1, hd, hf, hg] at he
    · rintro ⟨h1, h2⟩
      exact ⟨.merror ("Object " ++ id ++ " not found") true, by simp [getV1, h1, h2], rfl⟩
  · intro m h1 h2
    exact ⟨.wrapped "Failed to create a mapper: " (.merror m false),
      by simp [getV1, h1, h2], rfl⟩

theorem getV1_notFound_distinguishes_witness :
    (∃ e, (getV1 0 emptyV1 "Nothing").1 = .err e ∧ e.notFoundFlag = true) ∧
    (∃ e, (getV1 0 c6fail "BadMapper").1 = .err e ∧ e.notFoundFlag = false) :=
  ⟨(getV1_notFound_distinguishes emptyV1 "Nothing" 0).1.mpr ⟨rfl, rfl⟩,
   (getV1_notFound_distinguishes c6fail "BadMapper" 0).2 "boom" rfl rfl⟩

/-! ## C3: `Merge` precedence on `Get`

`Merge` makes the other registry win on key collisions inside each of
the two maps.  `Get` however prefers a dependency hit over a factory,
so the other registry does not win when the base holds an instance and
the other holds only a factory for the id: the counterexample below
exercises exactly this mixed registration. -/

/-- C3 (amended): after `Merge(other)`, `Get(id)` returns the instance
the other registry stored under `id` when there is one; an id whose
entries live only in the base keeps returning the base instance; and
when the base stored an instance while the other registry has no
instance under the id (factory or not), the base instance is returned. -/
theorem mergeV1_get_precedence (d other : MappersV1) (id : String) (v : GoVal)
    (fuel : Nat) :
    (other.dependencies id = some v →
      getV1 fuel (mergeV1 d other) id = (.ok v, mergeV1 d other)) ∧
    (other.dependencies id = none → other.factories id = none →
      d.dependencies id = some v →
      getV1 fuel (mergeV1 d other) id = (.ok v, mergeV1 d other)) ∧
    (other.dependencies id = none → d.dependencies id = some v →
      getV1 fuel (mergeV1 d other) id = (.ok v, mergeV1 d other)) := by
  refine ⟨fun h1 => ?_, fun h1 _ h3 => ?_, fun h1 h2 => ?_⟩
  · simp [getV1, mergeV1, h1]
  · simp [getV1, mergeV1, h1, h3]
  · simp [getV1, mergeV1, h1, h2]

/-- C3 counterexample: FooMapper is registered in both registries (an
instance in the base, a factory in the other); resolving the other
registry alone yields `obj 2`, yet after `Merge` the combined registry
yields the base instance `obj 1`, not the object of the other
registry. -/
theorem mergeV1_get_mixed_counterexample :
    c3base.dependencies "FooMapper" = some (.obj 1 []) ∧
    (c3other.factories "FooMapper").isSome = true ∧
    (getV1 1 c3other "FooMapper").1 = .ok (.obj 2 []) ∧
    (getV1 1 (mergeV1 c3base c3other) "FooMapper").1 = .ok (.obj 1 []) ∧
    GoVal.obj 1 [] ≠ GoVal.obj 2 [] := by
  exact ⟨rfl, rfl, rfl, rfl, by decide⟩

theorem mergeV1_get_precedence_witness :
    getV1 1 (mergeV1 c3base c3wOther) "FooMapper" =
      (.ok (.obj 5 []), mergeV1 c3base c3wOther) ∧
    getV1 1 (mergeV1 c3base emptyV1) "FooMapper" =
      (.ok (.obj 1 []), mergeV1 c3base emptyV1) ∧
    getV1 1 (mergeV1 c3base c3other) "FooMapper" =
      (.ok (.obj 1 []), mergeV1 c3base c3other) :=
  ⟨(mergeV1_get_precedence c3base c3wOther "FooMapper" (.obj 5 []) 1).1 rfl,
   (mergeV1_get_precedence c3base emptyV1 "FooMapper" (.obj 1 []) 1).2.1 rfl rfl rfl,
   (mergeV1_get_precedence c3base c3other "FooMapper" (.obj 1 []) 1).2.2 rfl rfl⟩

/-- C10: both `Add` variants panic with an `Unknown object type` message
exactly for the names `addRejectName` rejects, and return normally for
every other name. -/
theorem add_unknown_object_panics (name : String) (obj : GoVal)
    (d : MappersV1) (dv : MappersV2) :
    ((∃ m, MappersV1.add d name obj = .error m ∧
        goHasPfx m "Unknown object type" = true) ↔ addRejectName name = true) ∧
    ((∃ m, MappersV2.add dv name obj = .error m ∧
        goHasPfx m "Unknown object type" = true) ↔ addRejectName name = true) ∧
    (addRejectName name = false → ∃ d3, MappersV1.add d name obj = .ok d3) ∧
    (addRejectName name = false → ∃ d3, MappersV2.add dv name obj = .ok d3) := by
  by_cases h1 : goHasSfx (stripVersionSfx name) "Helper"
  · simp [MappersV1.add, MappersV2.add, addRejectName, h1]
  · by_cases h2 : goHasPfx (stripVersionSfx name) "mapperFunc:"
    · simp [MappersV1.add, MappersV2.add, addRejectName, h1, h2]
    · by_cases h3 : goHasPfx (stripVersionSfx name) "converterFunc:"
      · simp [MappersV1.add, MappersV2.add, addRejectName, h1, h2, h3]
      · by_cases h4 : goHasSfx (stripVersionSfx name) "Converter"
        · simp [MappersV1.add, MappersV2.add, addRejectName, h1, h2, h3, h4]
        · by_cases h5 : goHasSfx (stripVersionSfx name) "Mapper"
          · simp [MappersV1.add, MappersV2.add, addRejectName, h1, h2, h3, h4, h5]
          · refine ⟨⟨fun _ => ?_, fun _ => ?_⟩, ⟨fun _ => ?_, fun _ => ?_⟩, fun hr => ?_, fun hr => ?_⟩
            · simp [addRejectName, h1, h2, h3, h4, h5]
            · exact ⟨"Unknown object type:" ++ stripVersionSfx name,
                by simp [MappersV1.add, h1, h2, h3, h4, h5],
                goHasPfx_append "Unknown object type:" "Unknown object type"
                  (stripVersionSfx name) rfl⟩
            · simp [addRejectName, h1, h2, h3, h4, h5]
            · exact ⟨"Unknown object type:" ++ stripVersionSfx name,
                by simp [MappersV2.add, h1, h2, h3, h4, h5],
                goHasPfx_append "Unknown object type:" "Unknown object type"
                  (stripVersionSfx name) rfl⟩
            · exfalso
              rw [addRejectName] at hr
              simp [h1, h2, h3, h4, h5] at hr
            · exfalso
              rw [addRejectName] at hr
              simp [h1, h2, h3, h4, h5] at hr

/-- C10 witness: the theorem applied at a rejected name (Foo) and at an
accepted name (FooMapper). -/
theorem add_unknown_object_panics_witness :
    (∃ m, MappersV1.add emptyV1 "Foo" (.obj 0 []) = .error m ∧
        goHasPfx m "Unknown object type" = true) ∧
    (∃ d3, MappersV1.add emptyV1 "FooMapper" (.obj 0 []) = .ok d3) ∧
    (∃ d3, MappersV2.add emptyV2 "FooHelper" (.obj 0 []) = .ok d3) :=
  ⟨(add_unknown_object_panics "Foo" (.obj 0 []) emptyV1 emptyV2).1.mpr rfl,
   (add_unknown_object_panics "FooMapper" (.obj 0 []) emptyV1 emptyV2).2.2.1 rfl,
   (add_unknown_object_panics "FooHelper" (.obj 0 []) emptyV1 emptyV2).2.2.2 rfl⟩

/-! ## C5: `AddFactory` plus `Get` memoizes the factory result -/

@[simp] lemma withFacts_factories (d : MappersV2) (f : String → Option SingletonV2) :
    (d.withFacts f).factories = f := by
  cases d <;> rfl

@[simp] lemma withFacts_dependencies (d : MappersV2) (f : String → Option SingletonV2) :
    (d.withFacts f).dependencies = d.dependencies := by
  cases d <;> rfl

@[simp] lemma withDeps_dependencies (d : MappersV2) (f : String → Option GoVal) :
    (d.withDeps f).dependencies = f := by
  cases d <;> rfl

@[simp] lemma withDeps_factories (d : MappersV2) (f : String → Option GoVal) :
    (d.withDeps f).factories = d.factories := by
  cases d <;> rfl

/-- The converter scan of v2 `Add` never changes the dependencies. -/
lemma scanConverterV2_dependencies (obj : GoVal) (d : MappersV2) :
    (scanConverterV2 obj d).dependencies = d.dependencies := by
  unfold scanConverterV2
  induction methodsOf obj generalizing d with
  | nil => rfl
  | cons m ms ih =>
    simp only [List.foldl_cons]
    rw [ih]
    split
    · split
      · rfl
      · simp [MappersV2.addFactory]
    · rfl

/-- The mapper scan of v2 `Add` never changes the dependencies. -/
lemma scanMapperV2_dependencies (obj : GoVal) (d : MappersV2) :
    (scanMapperV2 obj d).dependencies = d.dependencies := by
  unfold scanMapperV2
  induction methodsOf obj generalizing d with
  | nil => rfl
  | cons m ms ih =>
    simp only [List.foldl_cons]
    rw [ih]
    split
    · split
      · rfl
      · simp [MappersV2.addFactory]
    · rfl

/-- The converter scan of v2 `Add` stores only `converterFunc:` keys, so
it preserves the factory entry of any key without that class. -/
lemma scanConverterV2_factories (obj : GoVal) (d : MappersV2) (k : String)
    (hk : goHasPfx k "converterFunc:" = false) :
    (scanConverterV2 obj d).factories k = d.factories k := by
  unfold scanConverterV2
  induction methodsOf obj generalizing d with
  | nil => rfl
  | cons m ms ih =>
    simp only [List.foldl_cons]
    rw [ih]
    split
    · split
      · rfl
      · simp only [MappersV2.addFactory, withFacts_factories, mapStore]
        split
        · rename_i hkK
          exfalso
          rw [hkK] at hk
          rw [goHasPfx_append _ _ _ (goHasPfx_append _ _ _
            (goHasPfx_append "converterFunc:" "converterFunc:" _ rfl))] at hk
          exact Bool.noConfusion hk
        · rfl
    · rfl

/-- The mapper scan of v2 `Add` stores only `mapperFunc:` keys. -/
lemma scanMapperV2_factories (obj : GoVal) (d : MappersV2) (k : String)
    (hk : goHasPfx k "mapperFunc:" = false) :
    (scanMapperV2 obj d).factories k = d.factories k := by
  unfold scanMapperV2
  induction methodsOf obj generalizing d with
  | nil => rfl
  | cons m ms ih =>
    simp only [List.foldl_cons]
    rw [ih]
    split
    · split
      · rfl
      · simp only [MappersV2.addFactory, withFacts_factories, mapStore]
        split
        · rename_i hkK
          exfalso
          rw [hkK] at hk
          rw [goHasPfx_append _ _ _ (goHasPfx_append _ _ _
            (goHasPfx_append "mapperFunc:" "mapperFunc:" _ rfl))] at hk
          exact Bool.noConfusion hk
        · rfl
    · rfl

/-- A successful v2 `Add` leaves the stored object under its
(unstripped) name. -/
lemma addV2_dependencies_at_name (d : MappersV2) (name : String) (obj : GoVal)
    (d2 : MappersV2) (h : MappersV2.add d name obj = .ok d2) :
    d2.dependencies name = some obj := by
  unfold MappersV2.add at h
  by_cases h1 : goHasSfx (stripVersionSfx name) "Helper" <;>
    simp only [h1, if_true, if_false] at h
  · cases h; simp [mapStore]
  by_cases h2 : goHasPfx (stripVersionSfx name) "mapperFunc:" <;>
    simp only [h2, if_true, if_false] at h
  · cases h; simp [mapStore]
  by_cases h3 : goHasPfx (stripVersionSfx name) "converterFunc:" <;>
    simp only [h3, if_true, if_false] at h
  · cases h; simp [mapStore]
  by_cases h4 : goHasSfx (stripVersionSfx name) "Converter" <;>
    simp only [h4, if_true, if_false] at h
  · cases h
    rw [scanConverterV2_dependencies]
    simp [mapStore]
  by_cases h5 : goHasSfx (stripVersionSfx name) "Mapper" <;>
    simp only [h5, if_true, if_false] at h
  · cases h
    rw [scanMapperV2_dependencies]
    simp [mapStore]
  exact absurd h (by simp)

/-- A successful v2 `Add` leaves the factory entry of its own name
untouched: the only keys it stores carry a `mapperFunc:` or
`converterFunc:` class, and a name that reaches a scanning branch has
neither class (stripping preserves the class because its last character
is a colon). -/
lemma addV2_factories_at_name (d : MappersV2) (name : String) (obj : GoVal)
    (d2 : MappersV2) (h : MappersV2.add d name obj = .ok d2) :
    d2.factories name = d.factories name := by
  unfold MappersV2.add at h
  by_cases h1 : goHasSfx (stripVersionSfx name) "Helper" <;>
    simp only [h1, if_true, if_false] at h
  · cases h; simp
  by_cases h2 : goHasPfx (stripVersionSfx name) "mapperFunc:" <;>
    simp only [h2, if_true, if_false] at h
  · cases h; simp
  by_cases h3 : goHasPfx (stripVersionSfx name) "converterFunc:" <;>
    simp only [h3, if_true, if_false] at h
  · cases h; simp
  have hname2 : goHasPfx name "mapperFunc:" = false := by
    cases hx : goHasPfx name "mapperFunc:" with
    | false => rfl
    | true =>
      exact absurd (goHasPfx_stripVersionSfx name "mapperFunc:" hx ':' rfl rfl
        (by decide) (by decide)) (by simp [h2])
  have hname3 : goHasPfx name "converterFunc:" = false := by
    cases hx : goHasPfx name "converterFunc:" with
    | false => rfl
    | true =>
      exact absurd (goHasPfx_stripVersionSfx name "converterFunc:" hx ':' rfl rfl
        (by decide) (by decide)) (by simp [h3])
  by_cases h4 : goHasSfx (stripVersionSfx name) "Converter" <;>
    simp only [h4, if_true, if_false] at h
  · cases h
    rw [scanConverterV2_factories _ _ _ hname3]
    simp
  by_cases h5 : goHasSfx (stripVersionSfx name) "Mapper" <;>
    simp only [h5, if_true, if_false] at h
  · cases h
    rw [scanMapperV2_factories _ _ _ hname2]
    simp
  exact absurd h (by simp)

/-- C5: for an id registered through v2 `AddFactory` (a fresh,
uninvoked singleton), a successful first `Get` invokes the factory
once; the second `Get` returns the same object out of the dependency
store without touching the registry, and the invocation count stays at
one. -/
theorem getV2_factory_memoized (d : MappersV2)
    (id : String) (r : Except String GoVal) (v : GoVal) (d1 : MappersV2)
    (hdep : d.dependencies id = none)
    (hfact : d.factories id = some { factoryRes := r, memo := none, calls := 0 })
    (hfirst : MappersV2.get d id = (.ok v, d1)) :
    MappersV2.get d1 id = (.ok v, d1) ∧ singletonCalls d1 id = 1 := by
  have hres : MappersV2.resolveFactory d id
      { factoryRes := r, memo := none, calls := 0 } = (.ok v, d1) := by
    cases d with
    | root deps facts =>
      simp only [MappersV2.dependencies, MappersV2.factories] at hdep hfact
      simpa only [MappersV2.get, hdep, hfact] using hfirst
    | child deps facts p =>
      simp only [MappersV2.dependencies, MappersV2.factories] at hdep hfact
      simpa only [MappersV2.get, hdep, hfact] using hfirst
  have hfine : d1.dependencies id = some v ∧
      d1.factories id = some { factoryRes := r, memo := some r, calls := 1 } := by
    unfold MappersV2.resolveFactory at hres
    simp only [SingletonV2.resolve] at hres
    cases r with
    | error m => simp at hres
    | ok obj =>
      simp only at hres
      cases hadd : MappersV2.add
          (d.withFacts (mapStore d.factories id
            { factoryRes := .ok obj, memo := some (.ok obj), calls := 0 + 1 }))
          id obj with
      | error pm => rw [hadd] at hres; simp at hres
      | ok d2 =>
        rw [hadd] at hres
        simp only [Prod.mk.injEq, GoOutcome.ok.injEq] at hres
        obtain ⟨hv, hd⟩ := hres
        subst hv
        subst hd
        refine ⟨addV2_dependencies_at_name _ _ _ _ hadd, ?_⟩
        rw [addV2_factories_at_name _ _ _ _ hadd]
        simp [mapStore]
  obtain ⟨hd1dep, hd1fact⟩ := hfine
  constructor
  · cases d1 with
    | root dd ff =>
      simp only [MappersV2.dependencies] at hd1dep
      simp only [MappersV2.get, hd1dep]
    | child dd ff pp =>
      simp only [MappersV2.dependencies] at hd1dep
      simp only [MappersV2.get, hd1dep]
  · simp only [singletonCalls, hd1fact]

theorem getV2_factory_memoized_witness :
    MappersV2.get c5regAfter "FooMapper" = (.ok (.obj 7 []), c5regAfter) ∧
    singletonCalls c5regAfter "FooMapper" = 1 :=
  getV2_factory_memoized c5reg "FooMapper" (.ok (.obj 7 [])) (.obj 7 [])
    c5regAfter rfl rfl rfl

/-! ## C9: function-index order and owner lookup -/

/-- Searching a list from the end selects the last element satisfying
the predicate. -/
lemma revFind_eq_getLast_filter (l : List MFunc) (p : MFunc → Bool) :
    revFind l p = (l.filter p).getLast? := by
  unfold revFind
  rw [← List.filter_head? p l.reverse, List.filter_reverse, List.head?_reverse]

/-- C9: (a) merging appends the function-index list of the other
registry behind the list of the base for every key, so insertion order
is preserved and later registrations sit at the end; (b) a lookup
without an owner id selects the most recently registered global entry
(given that index entries carry nonempty owner ids, as every entry
produced by `addMethods` does); (c) a lookup with an explicit owner id
selects the most recent entry of that owner, regardless of any later
entries of other owners. -/
theorem findex_order_and_lookup (d : MappersM) (sourceName destName o : String)
    (lst : List MFunc) (sel : MFunc) :
    (∀ other k, (((d.merge other).findex k).getD []) =
        ((d.findex k).getD []) ++ ((other.findex k).getD [])) ∧
    (d.findex (toTypeIndexFromString "func:" sourceName destName) = some lst →
      (∀ e ∈ lst, e.objectId ≠ "") →
      (lst.filter (fun e => e.global)).getLast? = some sel →
      d.getFuncByTypeName "" sourceName destName = resolveEntry d sel) ∧
    (o ≠ "" →
      d.findex (toTypeIndexFromString "func:" sourceName destName) = some lst →
      (lst.filter (fun e => e.objectId = o)).getLast? = some sel →
      d.getFuncByTypeName o sourceName destName = resolveEntry d sel) := by
  refine ⟨fun other k => ?_, fun hidx hne hlast => ?_, fun ho hidx hlast => ?_⟩
  · simp only [MappersM.merge]
    cases h : other.findex k with
    | none => simp
    | some lv => simp
  · simp only [MappersM.getFuncByTypeName, hidx]
    rw [revFind_eq_getLast_filter]
    have hfilter : lst.filter (fun e => e.global && decide True ||
        decide (e.objectId = "")) = lst.filter (fun e => e.global) := by
      apply List.filter_congr
      intro e he
      have hne' : decide (e.objectId = "") = false := by
        simpa using hne e he
      simp [hne']
    rw [hfilter, hlast]
  · simp only [MappersM.getFuncByTypeName, hidx]
    rw [revFind_eq_getLast_filter]
    have hfe : (fun (e : MFunc) => (e.global && decide (o = "")) ||
        decide (e.objectId = o)) = fun e => decide (e.objectId = o) := by
      funext e
      have ho' : decide (o = "") = false := by simpa using ho
      simp [ho']
    rw [hfe, hlast]

/-- C8: (a) `AddMapperFuncField` keeps at most one delegate field per
distinct type pair (the pair names stay without duplicates); (b) with a
delegate field for the pair, `genAssignStmt` emits the nil-check guard
around the delegate call and places exactly the no-delegate emission
(`genAssignFallback`) in the else branch; (c) without a delegate field
the emission is the fallback alone; (d) for a pair with distinct
qualified names, the fallback is the safe-cast assignment when
`CanCast` accepts the pair and empty otherwise; (e) the constructor
binding block holds exactly one `GetMapperFunc` lookup per stored
delegate field. -/
theorem genAssign_delegate_structure (fuel : Nat) (sv dv : MappingValue)
    (c : Mctx) (mf : MapperFuncField) (s t : GoType) (fs : List MapperFuncField) :
    ((mapperFieldNames c).Nodup → (mapperFieldNames (c.addMapperFuncField s t)).Nodup) ∧
    (c.getMapperFuncFieldName sv.typeOf dv.typeOf = some mf →
      genAssignStmt fuel sv dv c =
        (["if m." ++ mf.fieldName ++ " != nil \x7b"] ++ (delegateArg sv).1 ++
          (delegateDest dv c).1 ++
          ["  if err := m." ++ mf.fieldName ++ "(ctx, " ++ (delegateArg sv).2 ++
              ", " ++ (delegateDest dv c).2.1 ++ "); err != nil \x7b",
            "    return err"] ++
          (if dv.canAddr then ["\x7d"]
           else ["  \x7d else \x7b", dv.getSetterSource "v", "  \x7d"]) ++
          ["\x7d else \x7b "] ++
          (genAssignFallback fuel sv dv (delegateDest dv c).2.2).1 ++ ["\x7d"],
         (genAssignFallback fuel sv dv (delegateDest dv c).2.2).2)) ∧
    (c.getMapperFuncFieldName sv.typeOf dv.typeOf = none →
      genAssignStmt fuel sv dv c = genAssignFallback fuel sv dv c) ∧
    (GetQualifiedTypeName sv.typeOf ≠ GetQualifiedTypeName dv.typeOf →
      (CanCast sv.typeOf dv.typeOf = false → genAssignFallback fuel sv dv c = ([], c)) ∧
      (CanCast sv.typeOf dv.typeOf = true → genAssignFallback (fuel + 1) sv dv c =
        genAssignStmt fuel
          (NewLocalMappingValue
            ((GetSource dv.typeOf c).1 ++ "(" ++ sv.getGetterSource ++ ")")
            dv.typeOf) dv (GetSource dv.typeOf c).2)) ∧
    (((initMapperFieldLines fs c).1.filter
        (fun l => goHasPfx l "if obj, err := mapperGetter.GetMapperFunc(")).length
      = fs.length) := by
  refine ⟨?_, ?_, ?_, ?_, ?_⟩
  · intro hnd
    by_cases h1 : GetQualifiedTypeName s = GetQualifiedTypeName t
    · simp only [Mctx.addMapperFuncField, h1, if_true]
      exact hnd
    · by_cases h2 : (c.mapperFuncFields.any
          (fun m => m.mapperFuncName = mappersName s t)) = true
      · simp only [Mctx.addMapperFuncField, h1, if_false, h2, if_true]
        exact hnd
      · simp only [Mctx.addMapperFuncField, h1, if_false, h2]
        simp only [Bool.not_eq_true] at h2
        rw [if_neg Bool.false_ne_true]
        simp only [mapperFieldNames, List.map_append, List.map_cons, List.map_nil]
        rw [List.nodup_append]
        refine ⟨hnd, List.nodup_singleton _, ?_⟩
        intro x hx
        simp only [List.mem_singleton]
        intro hx1
        simp only [List.mem_map] at hx
        obtain ⟨mm, hmm, hmx⟩ := hx
        have : c.mapperFuncFields.any
            (fun m => m.mapperFuncName = mappersName s t) = true := by
          simp only [List.any_eq_true, decide_eq_true_eq]
          exact ⟨mm, hmm, by rw [hmx, hx1]⟩
        rw [this] at h2
        exact Bool.noConfusion h2
  · intro h
    cases fuel with
    | zero => simp only [genAssignStmt, genAssignWith, genAssignFallback, h]
    | succ fuel' => simp only [genAssignStmt, genAssignWith, genAssignFallback, h]
  · intro h
    cases fuel with
    | zero => simp only [genAssignStmt, genAssignWith, genAssignFallback, h]
    | succ fuel' => simp only [genAssignStmt, genAssignWith, genAssignFallback, h]
  · intro hne
    constructor
    · intro hcc
      cases fuel with
      | zero =>
        simp only [genAssignFallback, genAssignCoreWith]
        simp [hne, hcc]
      | succ fuel' =>
        simp only [genAssignFallback, genAssignCoreWith]
        simp [hne, hcc]
    · intro hcc
      simp only [genAssignFallback, genAssignCoreWith]
      simp [hne, hcc, NewLocalMappingValue]
  · induction fs generalizing c with
    | nil => rfl
    | cons mf0 rest ih =>
      simp only [initMapperFieldLines]
      simp only [List.filter_append, List.length_append, List.filter_cons]
      have h1 : goHasPfx
          ("if obj, err := mapperGetter.GetMapperFunc(\"" ++
            GetQualifiedTypeName mf0.source ++ "\", \"" ++
            GetQualifiedTypeName mf0.dest ++ "\"); err == nil \x7b")
          "if obj, err := mapperGetter.GetMapperFunc(" = true := by
        exact goHasPfx_append _ _ _ (goHasPfx_append _ _ _
          (goHasPfx_append _ _ _ (goHasPfx_append
            "if obj, err := mapperGetter.GetMapperFunc(\""
            "if obj, err := mapperGetter.GetMapperFunc(" _ rfl)))
      have h2 : ∀ fld sg : String, goHasPfx ("  m." ++ fld ++ " = obj.(" ++ sg ++ ")")
          "if obj, err := mapperGetter.GetMapperFunc(" = false := by
        intro fld sg
        simp [goHasPfx, String.data_append, List.isPrefixOf]
      have h3 : goHasPfx "\x7d" "if obj, err := mapperGetter.GetMapperFunc(" = false := by
        rfl
      rw [h1, h2, h3]
      simp only [List.length_cons]
      rw [ih]
      simp [Nat.add_comm]

theorem genAssign_delegate_structure_witness :
    (mapperFieldNames (c8ctx.addMapperFuncField (.basic "int") (.basic "string"))).Nodup ∧
    genAssignStmt 1 c8sv c8dv c8ctx =
      (["if m." ++ c8mf.fieldName ++ " != nil \x7b"] ++ (delegateArg c8sv).1 ++
        (delegateDest c8dv c8ctx).1 ++
        ["  if err := m." ++ c8mf.fieldName ++ "(ctx, " ++ (delegateArg c8sv).2 ++
            ", " ++ (delegateDest c8dv c8ctx).2.1 ++ "); err != nil \x7b",
          "    return err"] ++
        (if c8dv.canAddr then ["\x7d"]
         else ["  \x7d else \x7b", c8dv.getSetterSource "v", "  \x7d"]) ++
        ["\x7d else \x7b "] ++
        (genAssignFallback 1 c8sv c8dv (delegateDest c8dv c8ctx).2.2).1 ++ ["\x7d"],
       (genAssignFallback 1 c8sv c8dv (delegateDest c8dv c8ctx).2.2).2) ∧
    genAssignStmt 1 c8sv c8dvStr (NewMappingContext "app") =
      genAssignFallback 1 c8sv c8dvStr (NewMappingContext "app") ∧
    genAssignFallback 1 c8sv c8dvStr (NewMappingContext "app") =
      ([], NewMappingContext "app") ∧
    genAssignFallback 2 c8sv c8dv (NewMappingContext "app") =
      genAssignStmt 1
        (NewLocalMappingValue
          ((GetSource c8dv.typeOf (NewMappingContext "app")).1 ++ "(" ++
            c8sv.getGetterSource ++ ")") c8dv.typeOf)
        c8dv (GetSource c8dv.typeOf (NewMappingContext "app")).2 ∧
    ((initMapperFieldLines [c8mf] c8ctx).1.filter
        (fun l => goHasPfx l "if obj, err := mapperGetter.GetMapperFunc(")).length
      = [c8mf].length := by
  refine ⟨?_, ?_, ?_, ?_, ?_, ?_⟩
  · exact (genAssign_delegate_structure 1 c8sv c8dv c8ctx c8mf
      (.basic "int") (.basic "string") [c8mf]).1 (by decide)
  · exact (genAssign_delegate_structure 1 c8sv c8dv c8ctx c8mf
      (.basic "int") (.basic "string") [c8mf]).2.1 rfl
  · exact (genAssign_delegate_structure 1 c8sv c8dvStr (NewMappingContext "app") c8mf
      (.basic "int") (.basic "string") [c8mf]).2.2.1 rfl
  · exact ((genAssign_delegate_structure 1 c8sv c8dvStr (NewMappingContext "app") c8mf
      (.basic "int") (.basic "string") [c8mf]).2.2.2.1 (by decide)).1 rfl
  · exact ((genAssign_delegate_structure 1 c8sv c8dv (NewMappingContext "app") c8mf
      (.basic "int") (.basic "string") [c8mf]).2.2.2.1 (by decide)).2 rfl
  · exact (genAssign_delegate_structure 1 c8sv c8dv c8ctx c8mf
      (.basic "int") (.basic "string") [c8mf]).2.2.2.2

theorem goAppend_foldl {α β : Type} (f : α → β) (xs : List α) (acc : List β) :
    xs.foldl (fun sl x => goAppend sl (f x)) (some acc) = some (acc ++ xs.map f) := by
  induction xs generalizing acc with
  | nil => simp
  | cons y ys ih =>
    have h1 : goAppend (some acc) (f y) = some (acc ++ [f y]) := rfl
    rw [List.foldl_cons, h1, ih]
    simp

/-- C4: in the slice-field block, a nil source under policy `empty`
emits the zero-length `make` assignment right after the nil test (the
runtime destination value is the non-nil empty slice `some []`), under
policy `nil` it emits the nil assignment there (runtime value `none`),
and a non-nil source is converted element by element into the
destination. -/
theorem slice_nil_policy {α β : Type} (fuel : Nat) (sn dn : String)
    (selem delem : GoType) (mapping : ObjectMapping) (c : Mctx)
    (lines : List String) (c2 : Mctx) (f : α → β) (xs : List α)
    (dest : Option (List β))
    (h : genFieldMapStmts (fuel + 1) (.localV sn (.slice selem))
          (.localV dn (.slice delem)) mapping c = .ok (lines, c2)) :
    (∃ v1 ds rest,
      (mapping.nilSlice = .asNil →
        lines = v1 :: ("if " ++ sn ++ " == nil \x7b") ::
          (dn ++ " = " ++ "nil") :: ("\x7d else \x7b") :: rest) ∧
      (mapping.nilSlice = .asEmpty →
        lines = v1 :: ("if " ++ sn ++ " == nil \x7b") ::
          (dn ++ " = " ++ ("make(" ++ ds ++ ", 0)")) ::
          ("\x7d else \x7b") :: rest)) ∧
    sliceMapExec .asEmpty f none dest = some [] ∧
    sliceMapExec .asNil f none dest = none ∧
    (sliceMapExec mapping.nilSlice f (some xs) dest).getD [] = xs.map f := by
  refine ⟨?_, rfl, rfl, ?_⟩
  · cases hpol : mapping.nilSlice with
    | asNil =>
      simp only [genFieldMapStmts, MappingValue.typeOf, MappingValue.getGetterSource,
        MappingValue.getSetterSource, Mctx.nextVarCount, hpol] at h
      repeat' split at h
      all_goals try exact Except.noConfusion h
      simp only [Except.ok.injEq, Prod.mk.injEq] at h
      obtain ⟨hl, _⟩ := h
      subst hl
      exact ⟨_, "", _, fun _ => rfl, fun hc => NilCollection.noConfusion hc⟩
    | asEmpty =>
      simp only [genFieldMapStmts, MappingValue.typeOf, MappingValue.getGetterSource,
        MappingValue.getSetterSource, Mctx.nextVarCount, hpol] at h
      repeat' split at h
      all_goals try exact Except.noConfusion h
      simp only [Except.ok.injEq, Prod.mk.injEq] at h
      obtain ⟨hl, _⟩ := h
      subst hl
      exact ⟨_, _, _, fun hc => NilCollection.noConfusion hc, fun _ => rfl⟩
    | unknown =>
      exact ⟨"", "", [],
        fun hc => NilCollection.noConfusion hc,
        fun hc => NilCollection.noConfusion hc⟩
    | maxMark =>
      exact ⟨"", "", [],
        fun hc => NilCollection.noConfusion hc,
        fun hc => NilCollection.noConfusion hc⟩
  · cases xs with
    | nil => rfl
    | cons y ys =>
      have h1 : (fun (sl : Option (List β)) x => goAppend sl (f x)) none y
          = some [f y] := rfl
      simp only [sliceMapExec, List.foldl_cons, h1, goAppend_foldl]
      simp

theorem slice_nil_policy_witness :
    (∃ v1 ds rest,
      (c4mapping.nilSlice = .asNil →
        c4lines = v1 :: "if v.S == nil \x7b" :: "d = nil" ::
          "\x7d else \x7b" :: rest) ∧
      (c4mapping.nilSlice = .asEmpty →
        c4lines = v1 :: "if v.S == nil \x7b" ::
          ("d = make(" ++ ds ++ ", 0)") :: "\x7d else \x7b" :: rest)) ∧
    sliceMapExec .asEmpty (fun n : Nat => n + 1) none none = some [] ∧
    sliceMapExec .asNil (fun n : Nat => n + 1) none none = none ∧
    (sliceMapExec c4mapping.nilSlice (fun n : Nat => n + 1)
        (some [1, 2]) none).getD [] = [2, 3] :=
  slice_nil_policy 1 "v.S" "d" (.basic "int") (.basic "int") c4mapping
    (NewMappingContext "app") c4lines c4ctx2 (fun n : Nat => n + 1) [1, 2]
    none rfl

/-- C2: in the source-field loop, a gettable field with no explicit
correspondence and no settable same-named counterpart on the other
operand fails generation with the unmapped-field error naming the field
when `ExplicitOnly` and `AllowUnmapped` are both false, and is skipped
(the loop continues on the remaining fields) when `AllowUnmapped` is
true. -/
theorem unmapped_field_behavior (fuel : Nat) (source dest : GoOperand)
    (sourceNameBase destNameBase : String) (sourceNamed destNamed : GoType)
    (destStruct : GoFields) (mapping : ObjectMapping) (t : OperandTy)
    (f : GoFieldRef) (rest : List GoFieldRef) (c : Mctx)
    (sourceValue : MappingValue)
    (h1 : ignoresContains mapping.ignores t f.name = false)
    (h2 : NewObjectPropertyMappingValue sourceNameBase sourceNamed f.name
            mapping.ignoreCase = some sourceValue)
    (h3 : sourceValue.canGet = true)
    (h4 : fieldsPair mapping.fields t f.name = none)
    (h5 : mapping.explicitOnly = false)
    (h6 : NewObjectPropertyMappingValue destNameBase destNamed f.name
            mapping.ignoreCase = none ∨
          ∃ dv, NewObjectPropertyMappingValue destNameBase destNamed f.name
            mapping.ignoreCase = some dv ∧ dv.canSet = false) :
    (mapping.allowUnmapped = false →
      genRun (fuel + 1) (.fieldsLoop source sourceNameBase dest destNameBase
          sourceNamed destNamed destStruct mapping t (f :: rest)) c =
        .error ("Unmapped field: \x27" ++ source.pkgName ++ "." ++
          source.name ++ "." ++ f.name ++ "\x27")) ∧
    (mapping.allowUnmapped = true →
      genRun (fuel + 1) (.fieldsLoop source sourceNameBase dest destNameBase
          sourceNamed destNamed destStruct mapping t (f :: rest)) c =
        genRun fuel (.fieldsLoop source sourceNameBase dest destNameBase
          sourceNamed destNamed destStruct mapping t rest) c) := by
  rcases h6 with h6 | ⟨dv, h6, hcs⟩
  · constructor <;> intro hau <;>
      simp [genRun, h1, h2, h3, h4, h5, hau, h6]
  · constructor <;> intro hau <;>
      simp [genRun, h1, h2, h3, h4, h5, hau, h6, hcs]

theorem unmapped_field_behavior_witness :
    genRun 2 (.fieldsLoop c2srcOp "v" c2dstOp "d" c2srcTy c2dstTy
        (.cons "Y" (.basic "int") .nil) NewObjectMapping .A [c2fld])
      (NewMappingContext "app") = .error "Unmapped field: \x27app.Src.X\x27" ∧
    genRun 2 (.fieldsLoop c2srcOp "v" c2dstOp "d" c2srcTy c2dstTy
        (.cons "Y" (.basic "int") .nil) c2mapU .A [c2fld])
      (NewMappingContext "app") =
      genRun 1 (.fieldsLoop c2srcOp "v" c2dstOp "d" c2srcTy c2dstTy
        (.cons "Y" (.basic "int") .nil) c2mapU .A []) (NewMappingContext "app") :=
  ⟨(unmapped_field_behavior 1 c2srcOp c2dstOp "v" "d" c2srcTy c2dstTy
      (.cons "Y" (.basic "int") .nil) NewObjectMapping .A c2fld []
      (NewMappingContext "app") (.objProp "v" "X" (.basic "int") none none)
      rfl (by rfl) rfl rfl rfl (Or.inl (by rfl))).1 rfl,
   (unmapped_field_behavior 1 c2srcOp c2dstOp "v" "d" c2srcTy c2dstTy
      (.cons "Y" (.basic "int") .nil) c2mapU .A c2fld []
      (NewMappingContext "app") (.objProp "v" "X" (.basic "int") none none)
      rfl (by rfl) rfl rfl rfl (Or.inl (by rfl))).2 rfl⟩

/-- C7 counterexample: with the source fields declared `X` then `Y` and
the destination fields declared `Y` then `X`, the generated body emits
the per-field blocks in the source declaration order `X`, `Y`, not in
the destination declaration order. -/
theorem genMapFuncBody_source_order_counterexample :
    (fieldsList c7srcStruct).map GoFieldRef.name = ["X", "Y"] ∧
    (fieldsList c7dstStruct).map GoFieldRef.name = ["Y", "X"] ∧
    genMapFuncBody 4 c7srcOp "v" c7dstOp "d" NewObjectMapping .A
      (NewMappingContext "app") =
      .ok (["d.X = v.X", "d.Y = v.Y"], NewMappingContext "app") ∧
    ["d.X = v.X", "d.Y = v.Y"] ≠ ["d.Y = v.Y", "d.X = v.X"] :=
  ⟨rfl, rfl, by rfl, by decide⟩

/-- C7 (amended): unless a whole-operand `*` correspondence consumes the
operand, `genMapFuncBody` runs the field loop over the SOURCE struct
fields in declaration order (followed by the dotted-correspondence
loop), and each eligible field emits its statement block before all
blocks of the fields declared after it. -/
theorem genMapFuncBody_source_field_order (fuel : Nat) (source dest : GoOperand)
    (sourceNameBase destNameBase : String) (mapping : ObjectMapping)
    (t : OperandTy) (c : Mctx) (sourceStruct destStruct : GoFields)
    (sourceNamed destNamed : GoType) (l1 l2 flines ls : List String)
    (c1 c2 fc c3 : Mctx) (f : GoFieldRef) (rest : List GoFieldRef)
    (sourceValue dv : MappingValue) :
    (GetStructType source.typ = some sourceStruct →
     GetNamedType source.typ = some sourceNamed →
     GetStructType dest.typ = some destStruct →
     GetNamedType dest.typ = some destNamed →
     fieldsPair mapping.fields t "*" = none →
     genRun fuel (.fieldsLoop source sourceNameBase dest destNameBase
       sourceNamed destNamed destStruct mapping t (fieldsList sourceStruct)) c
       = .ok (l1, c1) →
     genRun fuel (.nestedLoop source sourceNameBase dest destNameBase
       sourceStruct mapping t mapping.fields) c1 = .ok (l2, c2) →
     genMapFuncBody (fuel + 1) source sourceNameBase dest destNameBase mapping t c
       = .ok (l1 ++ l2, c2)) ∧
    (ignoresContains mapping.ignores t f.name = false →
     NewObjectPropertyMappingValue sourceNameBase sourceNamed f.name
       mapping.ignoreCase = some sourceValue →
     sourceValue.canGet = true →
     fieldsPair mapping.fields t f.name = none →
     mapping.explicitOnly = false →
     NewObjectPropertyMappingValue destNameBase destNamed f.name
       mapping.ignoreCase = some dv →
     dv.canSet = true →
     genFieldMapStmts fuel sourceValue dv mapping c = .ok (flines, fc) →
     genRun fuel (.fieldsLoop source sourceNameBase dest destNameBase
       sourceNamed destNamed destStruct mapping t rest) fc = .ok (ls, c3) →
     genRun (fuel + 1) (.fieldsLoop source sourceNameBase dest destNameBase
       sourceNamed destNamed destStruct mapping t (f :: rest)) c
       = .ok (flines ++ ls, c3)) := by
  constructor
  · intro hs hsn hd hdn hstar hloop hnest
    simp only [genMapFuncBody, genRun, hs, hsn, hd, hdn, hstar, hloop, hnest]
  · intro h1 h2 h3 h4 h5 h6 h7 h8 h9
    simp [genRun, h1, h2, h3, h4, h5, h6, h7, h8, h9]

theorem genMapFuncBody_source_field_order_witness :
    genMapFuncBody 4 c7srcOp "v" c7dstOp "d" NewObjectMapping .A
      (NewMappingContext "app") =
      .ok (["d.X = v.X", "d.Y = v.Y"] ++ [], NewMappingContext "app") ∧
    genRun 3 (.fieldsLoop c7srcOp "v" c7dstOp "d" c7srcTy c7dstTy c7dstStruct
        NewObjectMapping .A (fieldsList c7srcStruct)) (NewMappingContext "app") =
      .ok (["d.X = v.X"] ++ ["d.Y = v.Y"], NewMappingContext "app") :=
  ⟨(genMapFuncBody_source_field_order 3 c7srcOp c7dstOp "v" "d"
      NewObjectMapping .A (NewMappingContext "app") c7srcStruct c7dstStruct
      c7srcTy c7dstTy ["d.X = v.X", "d.Y = v.Y"] [] ["d.X = v.X"] ["d.Y = v.Y"]
      (NewMappingContext "app") (NewMappingContext "app") (NewMappingContext "app")
      (NewMappingContext "app") ⟨"X", .basic "int"⟩ [⟨"Y", .basic "int"⟩]
      (.objProp "v" "X" (.basic "int") none none)
      (.objProp "d" "X" (.basic "int") none none)).1
      (by rfl) (by rfl) (by rfl) (by rfl) (by rfl) (by rfl) (by rfl),
   (genMapFuncBody_source_field_order 2 c7srcOp c7dstOp "v" "d"
      NewObjectMapping .A (NewMappingContext "app") c7srcStruct c7dstStruct
      c7srcTy c7dstTy ["d.X = v.X", "d.Y = v.Y"] [] ["d.X = v.X"] ["d.Y = v.Y"]
      (NewMappingContext "app") (NewMappingContext "app") (NewMappingContext "app")
      (NewMappingContext "app") ⟨"X", .basic "int"⟩ [⟨"Y", .basic "int"⟩]
      (.objProp "v" "X" (.basic "int") none none)
      (.objProp "d" "X" (.basic "int") none none)).2
      (by rfl) (by rfl) (by rfl) (by rfl) (by rfl) (by rfl) (by rfl) (by rfl)
      (by rfl)⟩

theorem findex_order_and_lookup_witness :
    (((c9reg.merge c9reg).findex "func:S:D").getD [] =
      ((c9reg.findex "func:S:D").getD []) ++ ((c9reg.findex "func:S:D").getD [])) ∧
    (c9reg.getFuncByTypeName "" "S" "D" = resolveEntry c9reg c9eB) ∧
    (c9reg.getFuncByTypeName "AMapper" "S" "D" = resolveEntry c9reg c9eA) :=
  ⟨(findex_order_and_lookup c9reg "S" "D" "AMapper" [c9eA, c9eB] c9eB).1 c9reg "func:S:D",
   (findex_order_and_lookup c9reg "S" "D" "AMapper" [c9eA, c9eB] c9eB).2.1 rfl
     (by decide) rfl,
   (findex_order_and_lookup c9reg "S" "D" "AMapper" [c9eA, c9eB] c9eA).2.2
     (by decide) rfl rfl⟩

end Sesame
